import Mathlib

set_option maxHeartbeats 1000000

/-!
Shallow embedding of the survey engine of this repository
(`src/app/core/survey_engine.py`, class `SurveyEngine`), together with the
port contract it requires of `src/app/core/agent.py` (`LLMAgent.survey_step`,
`LLMAgent.review_answer`).  Python dictionaries are modelled as
insertion-ordered association lists, Python values reaching the engine from
the interpretation port as the inductive type `PyVal`, and the two
`AttributeError` / `KeyError` crash possibilities of `next_step` as an
`Except Crash` result.  External collaborators (the persistence store, the
moderation call and the interpretation port) are parameters.
-/

/-- A scalar JSON value inside a list reaching the engine.  The engine only
ever compares list elements against option strings, so a non-scalar element
behaves exactly like any non-matching scalar and is represented by `pynone`
or any other non-`str` atom. -/
inductive PyAtom where
  | str (v : String)
  | pynone
  | int (n : Int)
  | bool (b : Bool)
deriving DecidableEq

/-- A Python value as it can reach the engine from JSON-decoded model output:
a string, a list, `None`, an integer or a boolean. -/
inductive PyVal where
  | str (v : String)
  | list (vs : List PyAtom)
  | pynone
  | int (n : Int)
  | bool (b : Bool)
deriving DecidableEq

/-- The Python value a scalar atom denotes. -/
def PyAtom.toVal : PyAtom → PyVal
  | .str v => PyVal.str v
  | .pynone => PyVal.pynone
  | .int n => PyVal.int n
  | .bool b => PyVal.bool b

/-- Python truthiness (`bool(v)`) for the values of `PyVal`. -/
def PyVal.truthy : PyVal → Bool
  | .str v => v ≠ ""
  | .list vs => !vs.isEmpty
  | .pynone => false
  | .int n => n ≠ 0
  | .bool b => b

/-- The ASCII whitespace that Python's `str.strip()` removes. -/
def isPySpace (c : Char) : Bool :=
  c = ' ' ∨ c = '\t' ∨ c = '\n' ∨ c = '\r' ∨ c = '\x0b' ∨ c = '\x0c'

/-- Python `s.strip()` (over the character list, kernel-computable). -/
def pyStrip (s : String) : String :=
  ⟨((s.data.dropWhile isPySpace).reverse.dropWhile isPySpace).reverse⟩

/-- The comma-splitting loop of Python `s.split(",")`. -/
def splitCommaChars : List Char → List (List Char)
  | [] => [[]]
  | c :: cs =>
    match splitCommaChars cs with
    | [] => [[]]
    | piece :: rest => if c = ',' then [] :: piece :: rest else (c :: piece) :: rest

/-- Python `s.split(",")`. -/
def pySplitComma (s : String) : List String :=
  (splitCommaChars s.data).map (fun cs => ⟨cs⟩)

/-- Python `d.get(k)` on an insertion-ordered association list. -/
def dictGet {α : Type} (d : List (String × α)) (k : String) : Option α :=
  (d.find? (fun p => p.1 = k)).map (fun p => p.2)

/-- Python `d[k] = v` on an insertion-ordered association list: replace in
place when the key exists, append otherwise. -/
def dictSet {α : Type} (d : List (String × α)) (k : String) (v : α) : List (String × α) :=
  if (d.find? (fun p => p.1 = k)).isSome then
    d.map (fun p => if p.1 = k then (k, v) else p)
  else d ++ [(k, v)]

/-- A question's conditional predicate (`{"var": ..., "equals": ...}`). -/
structure Condition where
  var : String
  equals : PyVal
deriving DecidableEq

/-- A survey question as read by the engine: id, type tag, display text,
allowed options, optional storage key, optional condition. -/
structure Question where
  id : String
  qtype : String
  text : String
  options : List String
  save_as : Option String
  condition : Option Condition
deriving DecidableEq

/-- A survey definition: ordered questions plus intro / end / off-topic
texts and the answer-moderation flag. -/
structure SurveyDef where
  questions : List Question
  intro : String
  end_message : Option String
  off_topic_message : Option String
  moderate_answers : Bool
deriving DecidableEq

/-- Question status strings used by the engine. -/
inductive QStatus where
  | unasked
  | asked
  | answered
  | skipped
deriving DecidableEq

/-- One transcript entry (`_append_history`). -/
structure HistoryEntry where
  role : String
  content : PyVal
  question_id : Option String
deriving DecidableEq

/-- The per-session state owned by the engine (`_initial_state`). -/
structure SessionState where
  session_id : String
  survey_id : String
  answers : List (String × PyVal)
  question_status : List (String × QStatus)
  current_question_id : Option String
  history : List HistoryEntry
  terminated : Bool
deriving DecidableEq

/-- `survey_definition.get("end_message", "Survey complete.")`. -/
def endMessage (d : SurveyDef) : String :=
  d.end_message.getD "Survey complete."

/-- `_initial_state`: fresh state with every question `unasked`. -/
def initialState (session_id survey_id : String) (d : SurveyDef) : SessionState :=
  { session_id := session_id
    survey_id := survey_id
    answers := []
    question_status := d.questions.foldl (fun acc q => dictSet acc q.id QStatus.unasked) []
    current_question_id := Option.none
    history := []
    terminated := false }

/-- `_append_history`. -/
def appendHistory (st : SessionState) (role : String) (content : PyVal)
    (qid : Option String) : SessionState :=
  { st with history := st.history ++ [{ role := role, content := content, question_id := qid }] }

/-- `_get_question_map`: id-keyed dictionary of the questions. -/
def questionMap (d : SurveyDef) : List (String × Question) :=
  d.questions.foldl (fun acc q => dictSet acc q.id q) []

/-- `question_map.get(id)`. -/
def getQuestion (d : SurveyDef) (id : String) : Option Question :=
  dictGet (questionMap d) id

/-- `_is_condition_met`: no condition means eligible; otherwise the stored
answer for `var` must exist and equal `equals`, where a stored list matches
by membership. -/
def isConditionMet (q : Question) (answers : List (String × PyVal)) : Bool :=
  match q.condition with
  | Option.none => true
  | some c =>
    match dictGet answers c.var with
    | Option.none => false
    | some PyVal.pynone => false
    | some (PyVal.list vs) => vs.any (fun a => a.toVal = c.equals)
    | some v => v = c.equals

/-- `_mark_conditionally_skipped`: every still-`unasked` question whose
condition is not met becomes `skipped`. -/
def markConditionallySkipped (st : SessionState) (d : SurveyDef) : SessionState :=
  { st with question_status :=
      st.question_status.map (fun p =>
        if p.2 = QStatus.unasked then
          match getQuestion d p.1 with
          | Option.none => p
          | some q => if isConditionMet q st.answers then p else (p.1, QStatus.skipped)
        else p) }

/-- The scan loop of `_deterministic_next_question`: skip `answered`/`skipped`
questions, mark condition-failing ones `skipped`, return the first eligible
id. -/
def detNextLoop (st : SessionState) : List Question → Option String × SessionState
  | [] => (Option.none, st)
  | q :: rest =>
    match dictGet st.question_status q.id with
    | some QStatus.answered => detNextLoop st rest
    | some QStatus.skipped => detNextLoop st rest
    | _ =>
      if isConditionMet q st.answers then (some q.id, st)
      else detNextLoop
        { st with question_status := dictSet st.question_status q.id QStatus.skipped } rest

/-- `_deterministic_next_question`: after re-marking skips, scan the questions
strictly after the current one (from the start when there is none) for the
first eligible question. -/
def deterministicNextQuestion (st : SessionState) (d : SurveyDef) :
    Option String × SessionState :=
  let qids := d.questions.map (fun q => q.id)
  let dropN : Nat :=
    match st.current_question_id with
    | some cid => if cid ∈ qids then qids.indexOf cid + 1 else 0
    | Option.none => 0
  let st1 := markConditionallySkipped st d
  detNextLoop st1 (d.questions.drop dropN)

/-- The collection loop of `_eligible_questions`. -/
def eligLoop (st : SessionState) : List Question → List Question × SessionState
  | [] => ([], st)
  | q :: rest =>
    match dictGet st.question_status q.id with
    | some QStatus.answered => eligLoop st rest
    | some QStatus.skipped => eligLoop st rest
    | _ =>
      if isConditionMet q st.answers then
        let r := eligLoop st rest
        (q :: r.1, r.2)
      else eligLoop
        { st with question_status := dictSet st.question_status q.id QStatus.skipped } rest

/-- `_eligible_questions`: all questions neither answered/skipped nor
condition-failing, in definition order. -/
def eligibleQuestions (st : SessionState) (d : SurveyDef) :
    List Question × SessionState :=
  eligLoop (markConditionallySkipped st d) d.questions

/-- `_render_intro_and_question`. -/
def renderIntroAndQuestion (d : SurveyDef) (q : Question) : String :=
  pyStrip d.intro ++ "\n\n" ++ q.text

/-- `_normalize_answer`: the `(stored_value, is_valid, needs_clarification)`
triple for a parsed value against the current question. -/
def normalizeAnswer (q : Question) (parsed : PyVal) : PyVal × Bool × Bool :=
  if parsed = PyVal.str "SKIP" then (PyVal.str "SKIP", true, false)
  else if q.qtype = "free_text" then
    match parsed with
    | PyVal.str v => (PyVal.str v, true, false)
    | _ => (PyVal.str "", false, true)
  else if q.qtype = "multi_choice" then
    let coerced : PyVal :=
      match parsed with
      | PyVal.str v =>
        PyVal.list ((((pySplitComma v).map pyStrip).filter (fun s => s ≠ "")).map PyAtom.str)
      | p => p
    match coerced with
    | PyVal.list vs =>
      if vs.all (fun e => match e with | PyAtom.str o => q.options.contains o | _ => false) then
        (PyVal.list vs, true, false)
      else (PyVal.list [], false, true)
    | _ => (PyVal.list [], false, true)
  else
    match parsed with
    | PyVal.str v =>
      if q.options.contains v then (PyVal.str v, true, false)
      else (PyVal.str "", false, true)
    | _ => (PyVal.str "", false, true)

/-- `_store_answer`: record the normalized value under the storage key and
mark the question `answered`, or `skipped` for the `SKIP` sentinel. -/
def storeAnswer (st : SessionState) (q : Question) (v : PyVal) : SessionState :=
  let save_as := q.save_as.getD q.id
  let status := if v = PyVal.str "SKIP" then QStatus.skipped else QStatus.answered
  let st1 := { st with answers := dictSet st.answers save_as v }
  { st1 with question_status := dictSet st1.question_status q.id status }

/-- The state snapshot handed to the interpretation port: `next_step` deep
copies the session state and pops the `terminated` key before the
`agent.survey_step` call, so the port's argument has no `terminated` field. -/
structure LlmState where
  session_id : String
  survey_id : String
  answers : List (String × PyVal)
  question_status : List (String × QStatus)
  current_question_id : Option String
  history : List HistoryEntry
deriving DecidableEq

/-- `deepcopy(state)` followed by `llm_state.pop("terminated", None)`. -/
def SessionState.toLlm (st : SessionState) : LlmState :=
  { session_id := st.session_id
    survey_id := st.survey_id
    answers := st.answers
    question_status := st.question_status
    current_question_id := st.current_question_id
    history := st.history }

/-- The value stored under the `"parsed_answer"` key of the port's response:
either a dictionary (with optional `question_id` / `value` keys) or any
non-dictionary value. -/
inductive PAField where
  | pdict (question_id : Option PyVal) (value : Option PyVal)
  | nonDict (v : PyVal)
deriving DecidableEq

/-- The keys of a dictionary-shaped port response that `next_step` reads;
`Option.none` means the key is absent. -/
structure PortFields where
  parsed_answer : Option PAField
  need_clarification : Option PyVal
  clarification_question : Option PyVal
  next_question_id : Option PyVal
  assistant_question_text : Option PyVal
deriving DecidableEq

/-- What `agent.survey_step` can hand back to the engine: a JSON-decoded
dictionary, or any non-dictionary value. -/
inductive PortResponse where
  | dict (f : PortFields)
  | nonDict (v : PyVal)
deriving DecidableEq

/-- `response.get("parsed_answer", {}) if isinstance(response, dict) else {}`. -/
def extractPA : PortResponse → PAField
  | PortResponse.dict f => f.parsed_answer.getD (PAField.pdict Option.none Option.none)
  | PortResponse.nonDict _ => PAField.pdict Option.none Option.none

/-- Whether the port response is a dictionary (`isinstance(response, dict)`). -/
def respIsDict : PortResponse → Bool
  | PortResponse.dict _ => true
  | PortResponse.nonDict _ => false

/-- Truthiness of `response.get("need_clarification")` for a dictionary
response. -/
def respNeedClar : PortResponse → Bool
  | PortResponse.dict f => (f.need_clarification.getD PyVal.pynone).truthy
  | PortResponse.nonDict _ => false

/-- `response.get("next_question_id")` for a dictionary response. -/
def respNextQ : PortResponse → PyVal
  | PortResponse.dict f => f.next_question_id.getD PyVal.pynone
  | PortResponse.nonDict _ => PyVal.pynone

/-- `response.get("clarification_question")` for a dictionary response. -/
def respClarText : PortResponse → PyVal
  | PortResponse.dict f => f.clarification_question.getD PyVal.pynone
  | PortResponse.nonDict _ => PyVal.pynone

/-- `response.get("assistant_question_text")` for a dictionary response. -/
def respAText : PortResponse → PyVal
  | PortResponse.dict f => f.assistant_question_text.getD PyVal.pynone
  | PortResponse.nonDict _ => PyVal.pynone

/-- An unhandled Python exception escaping `next_step`. -/
inductive Crash where
  | attributeError
  | keyError
deriving DecidableEq

/-- The `{session_id, message}` payload returned to the caller
(`interview_id` is added by `begin_session` only). -/
structure StepResult where
  session_id : String
  interview_id : Option String
  message : PyVal
deriving DecidableEq

/-- The moderation collaborator (`agent.review_answer(message, history)`). -/
def ModOracle : Type := String → List HistoryEntry → Bool

/-- The interpretation port (`agent.survey_step(llm_state, survey_definition,
user_message)`). -/
def PortFn : Type := LlmState → SurveyDef → String → PortResponse

/-- Python truthiness of an `Optional[str]` (`None` and `""` are falsy). -/
def optStrTruthy : Option String → Bool
  | some v => v ≠ ""
  | Option.none => false

/-- The terminate-and-return-end-message block (`state["terminated"] = True`,
append the end message, persist, return). -/
def terminateWithEnd (session_id : String) (interview : Option String)
    (d : SurveyDef) (st : SessionState) : StepResult × SessionState :=
  let st1 := { st with terminated := true }
  let msg := endMessage d
  let st2 := appendHistory st1 "assistant" (PyVal.str msg) Option.none
  ({ session_id := session_id, interview_id := interview, message := PyVal.str msg }, st2)

/-- `begin_session`: fresh state, first eligible question or immediate
termination; on success the question is marked `asked`, made current and
rendered with the intro. -/
def beginSession (session_id survey_id : String) (d : SurveyDef) :
    Except Crash (StepResult × SessionState) :=
  let st0 := initialState session_id survey_id d
  let r := deterministicNextQuestion st0 d
  match r.1 with
  | Option.none => Except.ok (terminateWithEnd session_id (some survey_id) d r.2)
  | some nid =>
    if nid = "" then Except.ok (terminateWithEnd session_id (some survey_id) d r.2)
    else
      match getQuestion d nid with
      | Option.none => Except.error Crash.keyError
      | some q =>
        let st1 := { r.2 with current_question_id := some nid
                              question_status := dictSet r.2.question_status nid QStatus.asked }
        let msg := renderIntroAndQuestion d q
        let st2 := appendHistory st1 "assistant" (PyVal.str msg) (some nid)
        Except.ok
          ({ session_id := session_id, interview_id := some survey_id
             message := PyVal.str msg }, st2)

/-- `_moderate_answer`: `None` messages and surveys without
`moderate_answers` are on-topic without consulting the collaborator. -/
def moderateAnswer (d : SurveyDef) (mod : ModOracle) (msg : Option String)
    (history : List HistoryEntry) : Bool :=
  match msg with
  | Option.none => true
  | some m => if !d.moderate_answers then true else mod m history

/-- `_handle_clarification`: append the clarification to the transcript under
the current question, persist, return it. -/
def handleClarification (st : SessionState) (qid : String) (text : PyVal) :
    StepResult × SessionState :=
  let st1 := appendHistory st "assistant" text (some qid)
  ({ session_id := st1.session_id, interview_id := Option.none, message := text }, st1)

/-- `_off_topic_response`: append the off-topic reminder under the current
question, persist, return it. -/
def offTopicResponse (st : SessionState) (d : SurveyDef) : StepResult × SessionState :=
  let reminder := d.off_topic_message.getD
    "Please respond to the current survey question or let me know if you'd like to skip."
  let st1 := appendHistory st "assistant" (PyVal.str reminder) st.current_question_id
  ({ session_id := st1.session_id, interview_id := Option.none
     message := PyVal.str reminder }, st1)

/-- Lines 207-222 of `next_step`, after the next-question id has been
selected: terminate on a falsy id, otherwise mark it `asked`, make it
current, and emit its phrasing (`question_map[next_question_id]` raises
`KeyError` for an unknown id). -/
def advanceFinish (d : SurveyDef) (sid : String) (dn2 : SessionState)
    (nextId : Option String) (atextRaw : PyVal) :
    Except Crash (StepResult × SessionState) :=
  match nextId with
  | Option.none => Except.ok (terminateWithEnd sid Option.none d dn2)
  | some nid =>
    if nid = "" then Except.ok (terminateWithEnd sid Option.none d dn2)
    else
      let st6 := { dn2 with current_question_id := some nid
                            question_status := dictSet dn2.question_status nid QStatus.asked }
      match getQuestion d nid with
      | Option.none => Except.error Crash.keyError
      | some nq =>
        let atext := if atextRaw.truthy then atextRaw else PyVal.str nq.text
        let st7 := appendHistory st6 "assistant" atext (some nid)
        Except.ok
          ({ session_id := sid, interview_id := Option.none, message := atext }, st7)

/-- Lines 201-222 of `next_step`: store the answer, bound the port's proposal
by the eligible set, fall back to the deterministic candidate, and finish.
(`parsed_answer["question_id"]` is also rewritten at lines 198-199, but only
on the local dictionary, with no further effect.) -/
def advancePhase (d : SurveyDef) (st2 : SessionState) (cq : Question) (sid : String)
    (nv : PyVal) (proposal : PyVal) (atextRaw : PyVal) :
    Except Crash (StepResult × SessionState) :=
  let st3 := storeAnswer st2 cq nv
  let e := eligibleQuestions st3 d
  let allowed := e.1.map (fun q => q.id)
  let dn := deterministicNextQuestion e.2 d
  let nextId : Option String :=
    match proposal with
    | PyVal.str v => if v ∈ allowed then some v else dn.1
    | _ => dn.1
  advanceFinish d sid dn.2 nextId atextRaw

/-- Lines 189-194 of `next_step`: `need_clarification` is the port's flag
(truthiness) or the normalizer's, and is forced on when the value is
invalid. -/
def clarifyDecision (valid needsClar portFlag : Bool) : Bool :=
  let need1 := portFlag || needsClar
  if !valid && !need1 then true else need1

/-- Lines 186-222 of `next_step`: extract and normalize the parsed answer,
force clarification on invalid values, answer the clarification sub-loop, or
advance.  `parsed_answer.get("value")` on a non-dictionary `parsed_answer`
and `response.get("need_clarification")` on a non-dictionary response raise
`AttributeError`. -/
def clarifyOrAnswer (d : SurveyDef) (st2 : SessionState) (cq : Question)
    (sid : String) (resp : PortResponse) : Except Crash (StepResult × SessionState) :=
  match extractPA resp with
  | PAField.nonDict _ => Except.error Crash.attributeError
  | PAField.pdict _ paVal =>
    let n := normalizeAnswer cq (paVal.getD PyVal.pynone)
    match resp with
    | PortResponse.nonDict _ => Except.error Crash.attributeError
    | PortResponse.dict f =>
      if clarifyDecision n.2.1 n.2.2 (f.need_clarification.getD PyVal.pynone).truthy then
        let craw := f.clarification_question.getD PyVal.pynone
        Except.ok
          (handleClarification st2 cq.id (if craw.truthy then craw else PyVal.str cq.text))
      else
        advancePhase d st2 cq sid n.1 (f.next_question_id.getD PyVal.pynone)
          (f.assistant_question_text.getD PyVal.pynone)

/-- `next_step`: delegate to `begin_session` on first contact, replay the end
message once terminated, re-mark skips, moderate, handle state without a
current question, then append the user message, consult the port on the
deep-copied `terminated`-stripped state, and clarify or advance. -/
def nextStep (d : SurveyDef) (mod : ModOracle) (port : PortFn)
    (loaded : Option SessionState) (sid svid : String) (msg : Option String) :
    Except Crash (StepResult × SessionState) :=
  match loaded with
  | Option.none => beginSession sid svid d
  | some st0 =>
    if st0.terminated then
      Except.ok
        ({ session_id := sid, interview_id := Option.none
           message := PyVal.str (endMessage d) }, st0)
    else
      let st1 := markConditionallySkipped st0 d
      if moderateAnswer d mod msg st1.history = false then
        Except.ok (offTopicResponse st1 d)
      else
        match st1.current_question_id.bind (getQuestion d) with
        | Option.none => Except.ok (terminateWithEnd sid Option.none d st1)
        | some cq =>
          let st2 := appendHistory st1 "user" (PyVal.str (msg.getD "")) (some cq.id)
          clarifyOrAnswer d st2 cq sid (port st2.toLlm d (msg.getD ""))

/-- The exact argument `next_step` hands to the port on the path where the
port is consulted: the state after skip-marking and the user-message append,
deep copied with the `terminated` key popped. -/
def portInput (d : SurveyDef) (st0 : SessionState) (msg : Option String) : LlmState :=
  let st1 := markConditionallySkipped st0 d
  match st1.current_question_id.bind (getQuestion d) with
  | some cq => (appendHistory st1 "user" (PyVal.str (msg.getD "")) (some cq.id)).toLlm
  | Option.none => st1.toLlm

/-- One scripted turn of external-collaborator behaviour: the user message,
the verdict the moderation collaborator would return, and the value the
interpretation port would return. -/
structure TurnInput where
  user_message : Option String
  onTopic : Bool
  resp : PortResponse
deriving DecidableEq

/-- `next_step` against scripted external collaborators. -/
def nextStepScripted (d : SurveyDef) (t : TurnInput) (loaded : Option SessionState)
    (sid svid : String) : Except Crash (StepResult × SessionState) :=
  nextStep d (fun _ _ => t.onTopic) (fun _ _ _ => t.resp) loaded sid svid t.user_message

/-- The question ids whose status became `asked` between two states. -/
def newlyAsked (pre post : SessionState) : List String :=
  (post.question_status.filter (fun p =>
    decide (p.2 = QStatus.asked ∧ dictGet pre.question_status p.1 ≠ some QStatus.asked))).map
    (fun p => p.1)

/-- The sequence of question ids that become `asked` over a scripted run of
`next_step` turns (cut short at a crash). -/
def askedTrace (d : SurveyDef) (sid svid : String) :
    SessionState → List TurnInput → List String
  | _, [] => []
  | st, t :: ts =>
    match nextStepScripted d t (some st) sid svid with
    | Except.error _ => []
    | Except.ok p => newlyAsked st p.2 ++ askedTrace d sid svid p.2 ts

/-- The saved state of a completed operation (fallback for a crash). -/
def stateAfter (e : Except Crash (StepResult × SessionState))
    (fallback : SessionState) : SessionState :=
  match e with
  | Except.ok p => p.2
  | Except.error _ => fallback

/-- The result payload of a completed operation (fallback for a crash). -/
def resultAfter (e : Except Crash (StepResult × SessionState)) : StepResult :=
  match e with
  | Except.ok p => p.1
  | Except.error _ => { session_id := "", interview_id := Option.none, message := PyVal.pynone }

/-! ### Concrete fixtures used by witnesses and counterexamples -/

def qY1 : Question :=
  { id := "Q1", qtype := "single_choice", text := "one?", options := ["Yes", "No"]
    save_as := some "q1", condition := Option.none }

def qY2 : Question :=
  { id := "Q2", qtype := "single_choice", text := "two?", options := ["Yes", "No"]
    save_as := some "q2", condition := Option.none }

def qY3 : Question :=
  { id := "Q3", qtype := "single_choice", text := "three?", options := ["Yes", "No"]
    save_as := some "q3", condition := Option.none }

def qMC : Question :=
  { id := "Q2", qtype := "multi_choice", text := "sources?"
    options := ["Manager", "Colleague", "Other"], save_as := some "q2"
    condition := Option.none }

/-- Three unconditioned single-choice questions, no answer moderation. -/
def dT3 : SurveyDef :=
  { questions := [qY1, qY2, qY3], intro := "Hi.", end_message := some "Done."
    off_topic_message := some "Stay on topic.", moderate_answers := false }

/-- One unconditioned single-choice question, default messages. -/
def dT1 : SurveyDef :=
  { questions := [qY1], intro := "Hi.", end_message := Option.none
    off_topic_message := Option.none, moderate_answers := false }

/-- Like `dT3` but with answer moderation enabled. -/
def dMod : SurveyDef :=
  { questions := [qY1, qY2, qY3], intro := "Hi.", end_message := some "Done."
    off_topic_message := some "Stay on topic.", moderate_answers := true }

/-- A well-behaved dictionary response: parsed value `v`, no clarification,
proposed next question `next`, no custom phrasing. -/
def respVal (v : PyVal) (next : Option String) : PortResponse :=
  PortResponse.dict
    { parsed_answer := some (PAField.pdict (some (PyVal.str "Q1")) (some v))
      need_clarification := some (PyVal.bool false)
      clarification_question := Option.none
      next_question_id := next.map PyVal.str
      assistant_question_text := Option.none }

/-- A dictionary response whose `parsed_answer` key holds JSON `null`. -/
def respNullPA : PortResponse :=
  PortResponse.dict
    { parsed_answer := some (PAField.nonDict PyVal.pynone)
      need_clarification := Option.none
      clarification_question := Option.none
      next_question_id := Option.none
      assistant_question_text := Option.none }

/-- The state persisted by `begin_session` on `dT3` (current question `Q1`). -/
def stT3 : SessionState :=
  stateAfter (beginSession "s" "v" dT3) (initialState "s" "v" dT3)

/-- The state persisted by `begin_session` on `dT1`. -/
def stT1 : SessionState :=
  stateAfter (beginSession "s" "v" dT1) (initialState "s" "v" dT1)

/-- The state persisted by `begin_session` on `dMod`. -/
def stMod : SessionState :=
  stateAfter (beginSession "s" "v" dMod) (initialState "s" "v" dMod)

/-! ### C1 -/

/-- C1: the claim requires `next_step` to terminate without an unhandled
exception for every value the interpretation port returns.  The code
violates this: on an active session with a current question, a dictionary
response whose `parsed_answer` key holds a non-dictionary (for example JSON
`null`) raises `AttributeError` at `parsed_answer.get("value")`
(survey_engine.py line 187), and a non-dictionary response raises
`AttributeError` at `response.get("need_clarification")` (line 189), the
`isinstance` guards at lines 186/202/217 notwithstanding. -/
theorem C1_port_output_crashes_next_step :
    nextStep dT3 (fun _ _ => true) (fun _ _ _ => respNullPA) (some stT3) "s" "v" (some "hi")
      = Except.error Crash.attributeError ∧
    nextStep dT3 (fun _ _ => true) (fun _ _ _ => PortResponse.nonDict (PyVal.str "oops"))
        (some stT3) "s" "v" (some "hi")
      = Except.error Crash.attributeError := by
  exact ⟨rfl, rfl⟩

/-! ### C9 -/

/-- C9: once the `terminated` flag is true, every `next_step` call returns
the end message of the survey definition and leaves the loaded state
entirely unchanged — no transcript growth, no mutation, for any user
message, moderation collaborator and port. -/
theorem C9_terminated_idempotent (d : SurveyDef) (mod : ModOracle) (port : PortFn)
    (st : SessionState) (sid svid : String) (msg : Option String)
    (h : st.terminated = true) :
    nextStep d mod port (some st) sid svid msg =
      Except.ok ({ session_id := sid, interview_id := Option.none
                   message := PyVal.str (endMessage d) }, st) := by
  simp [nextStep, h]

/-- Witness for C9 at a concrete terminated state. -/
theorem C9_terminated_idempotent_witness :
    ({ stT3 with terminated := true } : SessionState).terminated = true ∧
    nextStep dT3 (fun _ _ => true) (fun _ _ _ => respVal (PyVal.str "Yes") (some "Q2"))
        (some { stT3 with terminated := true }) "s" "v" (some "x") =
      Except.ok ({ session_id := "s", interview_id := Option.none
                   message := PyVal.str "Done." }, { stT3 with terminated := true }) :=
  ⟨rfl, C9_terminated_idempotent dT3 (fun _ _ => true)
    (fun _ _ _ => respVal (PyVal.str "Yes") (some "Q2"))
    { stT3 with terminated := true } "s" "v" (some "x") rfl⟩

/-! ### C3 -/

/-- The state persisted by the terminating `next_step` turn on `dT1`. -/
def stT1Final : SessionState :=
  stateAfter
    (nextStep dT1 (fun _ _ => true) (fun _ _ _ => respVal (PyVal.str "Yes") Option.none)
      (some stT1) "s" "v" (some "yes")) stT1

/-- C3 counterexample: a completed `next_step` turn that answers the last
question persists a state whose `current_question_id` is still set to `Q1`
while `Q1`'s recorded status is `answered`, not `asked` — the claimed
invariant fails on the terminal turn. -/
theorem C3_final_turn_counterexample :
    nextStep dT1 (fun _ _ => true) (fun _ _ _ => respVal (PyVal.str "Yes") Option.none)
        (some stT1) "s" "v" (some "yes")
      = Except.ok ({ session_id := "s", interview_id := Option.none
                     message := PyVal.str "Survey complete." }, stT1Final) ∧
    stT1Final.current_question_id = some "Q1" ∧
    dictGet stT1Final.question_status "Q1" = some QStatus.answered ∧
    QStatus.answered ≠ QStatus.asked := by
  refine ⟨rfl, rfl, rfl, by decide⟩

/-! ### Dictionary and state-shape lemmas -/

theorem find?_map_keyfix {α : Type} (m : List (String × α)) (f : String × α → String × α)
    (hf : ∀ p, (f p).1 = p.1) (k : String) :
    (m.map f).find? (fun p => decide (p.1 = k)) =
      (m.find? (fun p => decide (p.1 = k))).map f := by
  induction m with
  | nil => rfl
  | cons p m ih =>
    by_cases h : p.1 = k
    · simp [List.find?, hf, h]
    · simp [List.find?, hf, h, ih]

theorem dictGet_dictSet_self {α : Type} (m : List (String × α)) (k : String) (v : α) :
    dictGet (dictSet m k v) k = some v := by
  unfold dictGet dictSet
  by_cases h : (m.find? (fun p => decide (p.1 = k))).isSome
  · rw [if_pos h]
    rw [find?_map_keyfix m _ (fun p => by by_cases hp : p.1 = k <;> simp [hp]) k]
    rcases hm : m.find? (fun p => decide (p.1 = k)) with _ | p
    · rw [hm] at h; simp at h
    · have hp : p.1 = k := by simpa using List.find?_some hm
      rw [hm, Option.map_map]
      simp [Function.comp, hp]
  · rw [if_neg h, List.find?_append]
    rcases hm : m.find? (fun p => decide (p.1 = k)) with _ | p
    · simp [hm, List.find?]
    · rw [hm] at h; simp at h

theorem dictGet_dictSet_ne {α : Type} (m : List (String × α)) (k k' : String) (v : α)
    (h : k' ≠ k) : dictGet (dictSet m k v) k' = dictGet m k' := by
  unfold dictGet dictSet
  by_cases hs : (m.find? (fun p => decide (p.1 = k))).isSome
  · rw [if_pos hs]
    rw [find?_map_keyfix m _ (fun p => by by_cases hp : p.1 = k <;> simp [hp]) k']
    rcases hm : m.find? (fun p => decide (p.1 = k')) with _ | p
    · rw [hm]; rfl
    · have hp : p.1 = k' := by simpa using List.find?_some hm
      have hpk : ¬ p.1 = k := by rw [hp]; exact h
      rw [hm, Option.map_map]
      simp [Function.comp, hpk]
  · rw [if_neg hs, List.find?_append]
    rcases hm : m.find? (fun p => decide (p.1 = k')) with _ | p
    · simp [hm, List.find?, Ne.symm h]
    · simp [hm]

theorem markConditionallySkipped_shape (st : SessionState) (d : SurveyDef) :
    ∃ S, markConditionallySkipped st d = { st with question_status := S } :=
  ⟨_, rfl⟩

theorem mark_preserves_asked (st : SessionState) (d : SurveyDef) (cid : String)
    (h : dictGet st.question_status cid = some QStatus.asked) :
    dictGet (markConditionallySkipped st d).question_status cid = some QStatus.asked := by
  unfold markConditionallySkipped
  unfold dictGet at h ⊢
  have hf : ∀ p : String × QStatus,
      ((fun p : String × QStatus =>
        if p.2 = QStatus.unasked then
          match getQuestion d p.1 with
          | Option.none => p
          | some q => if isConditionMet q st.answers then p else (p.1, QStatus.skipped)
        else p) p).1 = p.1 := by
    intro p
    by_cases hu : p.2 = QStatus.unasked
    · simp only [hu, if_true, reduceIte]
      cases getQuestion d p.1 with
      | none => rfl
      | some q => by_cases hc : isConditionMet q st.answers <;> simp [hc]
    · simp [hu]
  rw [find?_map_keyfix st.question_status _ hf cid]
  rcases hm : st.question_status.find? (fun p => decide (p.1 = cid)) with _ | p
  · rw [hm] at h; simp at h
  · rw [hm] at h
    have hv : p.2 = QStatus.asked := by simpa using h
    rw [hm, Option.map_map]
    simp [Function.comp, hv]

theorem detNextLoop_shape (qs : List Question) (st : SessionState) :
    ∃ S, (detNextLoop st qs).2 = { st with question_status := S } := by
  induction qs generalizing st with
  | nil => exact ⟨st.question_status, rfl⟩
  | cons q rest ih =>
    unfold detNextLoop
    split
    · exact ih st
    · exact ih st
    · split
      · exact ⟨st.question_status, rfl⟩
      · exact ih _

theorem eligLoop_shape (qs : List Question) (st : SessionState) :
    ∃ S, (eligLoop st qs).2 = { st with question_status := S } := by
  induction qs generalizing st with
  | nil => exact ⟨st.question_status, rfl⟩
  | cons q rest ih =>
    unfold eligLoop
    split
    · exact ih st
    · exact ih st
    · split
      · exact ih st
      · exact ih _

theorem deterministicNextQuestion_shape (st : SessionState) (d : SurveyDef) :
    ∃ S, (deterministicNextQuestion st d).2 = { st with question_status := S } := by
  unfold deterministicNextQuestion
  exact detNextLoop_shape _ _

theorem eligibleQuestions_shape (st : SessionState) (d : SurveyDef) :
    ∃ S, (eligibleQuestions st d).2 = { st with question_status := S } := by
  unfold eligibleQuestions
  exact eligLoop_shape _ _

/-! ### C3 -/

/-- The data-model invariant of the claim, restricted to non-terminated
states. -/
def InvCur (st : SessionState) : Prop :=
  st.terminated = false → ∀ cid, st.current_question_id = some cid →
    dictGet st.question_status cid = some QStatus.asked

theorem advanceFinish_InvCur (d : SurveyDef) (sid : String) (dn2 : SessionState)
    (nextId : Option String) (araw : PyVal) (r : StepResult) (st1 : SessionState)
    (h : advanceFinish d sid dn2 nextId araw = Except.ok (r, st1)) : InvCur st1 := by
  simp only [advanceFinish] at h
  split at h
  · simp only [terminateWithEnd, appendHistory, Except.ok.injEq, Prod.mk.injEq] at h
    obtain ⟨-, h2⟩ := h
    subst h2
    intro hterm
    cases hterm
  · rename_i nid
    split at h
    · simp only [terminateWithEnd, appendHistory, Except.ok.injEq, Prod.mk.injEq] at h
      obtain ⟨-, h2⟩ := h
      subst h2
      intro hterm
      cases hterm
    · split at h
      · cases h
      · simp only [appendHistory, Except.ok.injEq, Prod.mk.injEq] at h
        obtain ⟨-, h2⟩ := h
        subst h2
        intro hterm cid hcid
        have hc : some nid = some cid := hcid
        injection hc with hc
        subst hc
        exact dictGet_dictSet_self dn2.question_status nid QStatus.asked

theorem advancePhase_InvCur (d : SurveyDef) (st2 : SessionState) (cq : Question)
    (sid : String) (nv proposal araw : PyVal) (r : StepResult) (st1 : SessionState)
    (h : advancePhase d st2 cq sid nv proposal araw = Except.ok (r, st1)) : InvCur st1 := by
  simp only [advancePhase] at h
  exact advanceFinish_InvCur _ _ _ _ _ _ _ h

theorem clarifyOrAnswer_InvCur (d : SurveyDef) (st2 : SessionState) (cq : Question)
    (sid : String) (resp : PortResponse) (cid0 : String) (r : StepResult) (st1 : SessionState)
    (hcur2 : st2.current_question_id = some cid0)
    (hasked2 : dictGet st2.question_status cid0 = some QStatus.asked)
    (h : clarifyOrAnswer d st2 cq sid resp = Except.ok (r, st1)) : InvCur st1 := by
  simp only [clarifyOrAnswer] at h
  split at h
  · cases h
  · split at h
    · cases h
    · split at h
      · simp only [handleClarification, appendHistory, Except.ok.injEq, Prod.mk.injEq] at h
        obtain ⟨-, h2⟩ := h
        subst h2
        intro hterm cid hcid
        have hc : st2.current_question_id = some cid := hcid
        rw [hcur2] at hc
        injection hc with hc
        subst hc
        exact hasked2
      · exact advancePhase_InvCur _ _ _ _ _ _ _ _ _ h

theorem beginSession_InvCur (sid svid : String) (d : SurveyDef) (r : StepResult)
    (st1 : SessionState) (h : beginSession sid svid d = Except.ok (r, st1)) : InvCur st1 := by
  simp only [beginSession] at h
  split at h
  · simp only [terminateWithEnd, appendHistory, Except.ok.injEq, Prod.mk.injEq] at h
    obtain ⟨-, h2⟩ := h
    subst h2
    intro hterm
    cases hterm
  · rename_i nid hnid
    split at h
    · simp only [terminateWithEnd, appendHistory, Except.ok.injEq, Prod.mk.injEq] at h
      obtain ⟨-, h2⟩ := h
      subst h2
      intro hterm
      cases hterm
    · split at h
      · cases h
      · simp only [appendHistory, Except.ok.injEq, Prod.mk.injEq] at h
        obtain ⟨-, h2⟩ := h
        subst h2
        intro hterm cid hcid
        have hc : some nid = some cid := hcid
        injection hc with hc
        subst hc
        exact dictGet_dictSet_self
          (deterministicNextQuestion (initialState sid svid d) d).2.question_status
          nid QStatus.asked

theorem nextStep_InvCur (d : SurveyDef) (mod : ModOracle) (port : PortFn)
    (st : SessionState) (sid svid : String) (msg : Option String) (r : StepResult)
    (st1 : SessionState) (hI : InvCur st)
    (h : nextStep d mod port (some st) sid svid msg = Except.ok (r, st1)) : InvCur st1 := by
  simp only [nextStep] at h
  split at h
  · rename_i hterm
    simp only [Except.ok.injEq, Prod.mk.injEq] at h
    obtain ⟨-, h2⟩ := h
    subst h2
    intro hterm'
    rw [hterm] at hterm'
    cases hterm'
  · rename_i hterm
    have hterm0 : st.terminated = false := Bool.eq_false_iff.mpr hterm
    split at h
    · simp only [offTopicResponse, appendHistory, Except.ok.injEq, Prod.mk.injEq] at h
      obtain ⟨-, h2⟩ := h
      subst h2
      intro _ cid hcid
      simp only [markConditionallySkipped] at hcid
      simpa using mark_preserves_asked st d cid (hI hterm0 cid (by simpa using hcid))
    · split at h
      · simp only [terminateWithEnd, appendHistory, Except.ok.injEq, Prod.mk.injEq] at h
        obtain ⟨-, h2⟩ := h
        subst h2
        intro hterm'
        cases hterm'
      · rename_i cq hcq
        obtain ⟨cid0, hcid0, hq0⟩ := Option.bind_eq_some.mp hcq
        have hcur : st.current_question_id = some cid0 := by
          simpa [markConditionallySkipped] using hcid0
        refine clarifyOrAnswer_InvCur d _ cq sid _ cid0 r st1 ?_ ?_ h
        · simpa [appendHistory, markConditionallySkipped] using hcur
        · simpa [appendHistory] using
            mark_preserves_asked st d cid0 (hI hterm0 cid0 hcur)

/-- C3 as amended: the claimed invariant — `current_question_id`, when set,
refers to a question whose status is `asked` — holds for every
**non-terminated** persisted state: `begin_session` establishes it and every
completed `next_step` preserves it.  Without the non-termination restriction
the claim fails on the terminal turn (`C3_final_turn_counterexample`). -/
theorem C3_current_asked_invariant :
    (∀ sid svid d r st1, beginSession sid svid d = Except.ok (r, st1) → InvCur st1) ∧
    (∀ d mod port st sid svid msg r st1, InvCur st →
      nextStep d mod port (some st) sid svid msg = Except.ok (r, st1) → InvCur st1) :=
  ⟨fun sid svid d r st1 h => beginSession_InvCur sid svid d r st1 h,
   fun d mod port st sid svid msg r st1 hI h =>
     nextStep_InvCur d mod port st sid svid msg r st1 hI h⟩

/-- Witness for the amended C3 at the concrete `begin_session` output on
`dT1`. -/
theorem C3_current_asked_invariant_witness : InvCur stT1 :=
  C3_current_asked_invariant.1 "s" "v" dT1 (resultAfter (beginSession "s" "v" dT1)) stT1 rfl

/-! ### C4 counterexample -/

/-- A turn whose port output answers `Yes` and proposes `Q3`. -/
def turnYesQ3 : TurnInput :=
  { user_message := some "yes", onTopic := true, resp := respVal (PyVal.str "Yes") (some "Q3") }

/-- A turn whose port output answers `Yes` and proposes `Q2`. -/
def turnYesQ2 : TurnInput :=
  { user_message := some "yes", onTopic := true, resp := respVal (PyVal.str "Yes") (some "Q2") }

/-- C4 counterexample: when the port proposes `Q3` while `Q2` is still
unanswered, `Q3` is eligible and is adopted; on the following turn the port
proposes `Q2`, which is still eligible and is adopted — so `Q2`, which
occurs strictly earlier than `Q3` in definition order, becomes `asked` after
`Q3` did, refuting definition-order asking. -/
theorem C4_out_of_order_counterexample :
    askedTrace dT3 "s" "v" stT3 [turnYesQ3, turnYesQ2] = ["Q3", "Q2"] ∧
    (dT3.questions.map (fun q => q.id)).indexOf "Q2" <
      (dT3.questions.map (fun q => q.id)).indexOf "Q3" := by
  exact ⟨rfl, by decide⟩

/-! ### C6 -/

/-- C6 counterexample: the raw string `"SKIP"` is a string that splits into
the single trimmed token `"SKIP"`, which is not among the options, so the
claim demands `([], invalid, clarification)`; the code's sentinel check at
line 100 precedes the multi-choice branch and returns
`("SKIP", valid, no clarification)` instead. -/
theorem C6_skip_sentinel_counterexample :
    qMC.qtype = "multi_choice" ∧
    ((((pySplitComma "SKIP").map pyStrip).filter (fun s => s ≠ ""))) = ["SKIP"] ∧
    qMC.options.contains "SKIP" = false ∧
    normalizeAnswer qMC (PyVal.str "SKIP") = (PyVal.str "SKIP", true, false) := by
  refine ⟨rfl, by decide, by decide, rfl⟩

/-- The multi-choice rule exactly as the spec's bullet states it: a string
is split on commas into trimmed non-empty tokens; the token list (or an
already-list value) is valid iff every element is a member of the question's
options; any other raw value is invalid, yielding an empty list and
clarification. -/
def multiChoiceNormSpec (q : Question) (raw : PyVal) : PyVal × Bool × Bool :=
  let tokens : Option (List PyAtom) :=
    match raw with
    | PyVal.str v =>
      some ((((pySplitComma v).map pyStrip).filter (fun s => s ≠ "")).map PyAtom.str)
    | PyVal.list vs => some vs
    | _ => Option.none
  match tokens with
  | some vs =>
    if vs.all (fun e => match e with | PyAtom.str o => q.options.contains o | _ => false) then
      (PyVal.list vs, true, false)
    else (PyVal.list [], false, true)
  | Option.none => (PyVal.list [], false, true)

/-- C6 as amended: for every multi-choice question and every raw value other
than the `SKIP` sentinel, `_normalize_answer` computes exactly the
comma-split/trim/membership rule of the claim. -/
theorem C6_multi_choice_normalization (q : Question) (raw : PyVal)
    (hq : q.qtype = "multi_choice") (hraw : raw ≠ PyVal.str "SKIP") :
    normalizeAnswer q raw = multiChoiceNormSpec q raw := by
  unfold normalizeAnswer multiChoiceNormSpec
  rw [if_neg hraw, if_neg (by rw [hq]; decide), if_pos hq]
  cases raw <;> rfl

/-- Witness for the amended C6 at the claim's own example. -/
theorem C6_multi_choice_normalization_witness :
    qMC.qtype = "multi_choice" ∧
    PyVal.str "Manager, Colleague" ≠ PyVal.str "SKIP" ∧
    normalizeAnswer qMC (PyVal.str "Manager, Colleague")
      = multiChoiceNormSpec qMC (PyVal.str "Manager, Colleague") ∧
    normalizeAnswer qMC (PyVal.str "Manager, Colleague")
      = (PyVal.list [PyAtom.str "Manager", PyAtom.str "Colleague"], true, false) :=
  ⟨rfl, by decide, C6_multi_choice_normalization qMC (PyVal.str "Manager, Colleague") rfl
    (by decide), by decide⟩

/-! ### C7 -/

/-- The state persisted by a `next_step` turn on `dT3` under a moderation
collaborator that reports every message off-topic. -/
def stC7 : SessionState :=
  stateAfter
    (nextStep dT3 (fun _ _ => false) (fun _ _ _ => respVal (PyVal.str "Yes") (some "Q2"))
      (some stT3) "s" "v" (some "something unrelated")) stT3

/-- C7 counterexample: `dT3` has no `moderate_answers` flag, so the
moderation collaborator — which here reports *every* message off-topic — is
never consulted: instead of the off-topic reminder with no recorded answer,
the turn records the answer, marks `Q1` answered and advances to `Q2`. -/
theorem C7_moderation_not_consulted_counterexample :
    dT3.moderate_answers = false ∧
    nextStep dT3 (fun _ _ => false) (fun _ _ _ => respVal (PyVal.str "Yes") (some "Q2"))
        (some stT3) "s" "v" (some "something unrelated")
      = Except.ok ({ session_id := "s", interview_id := Option.none
                     message := PyVal.str "two?" }, stC7) ∧
    dictGet stC7.answers "q1" = some (PyVal.str "Yes") ∧
    dictGet stC7.question_status "Q1" = some QStatus.answered ∧
    stC7.current_question_id = some "Q2" := by
  exact ⟨rfl, rfl, rfl, rfl, rfl⟩

/-- C7 as amended: on a non-terminated session whose definition enables
`moderate_answers` and whose user message is not `None` (and whose persisted
skip-marking is already settled, as it is for every state the engine
persists), the turn consults the moderation collaborator, and an off-topic
verdict makes the turn append the off-topic reminder to the transcript tied
to the current question, persist, and return it — with answers, question
statuses and the current question unchanged. -/
theorem C7_off_topic_turn (d : SurveyDef) (mod : ModOracle) (port : PortFn)
    (st : SessionState) (sid svid : String) (m : String) (cid : String)
    (hterm : st.terminated = false)
    (hmodflag : d.moderate_answers = true)
    (hmark : markConditionallySkipped st d = st)
    (hcur : st.current_question_id = some cid)
    (hoff : mod m st.history = false) :
    nextStep d mod port (some st) sid svid (some m) = Except.ok (offTopicResponse st d) ∧
    (offTopicResponse st d).1.message = PyVal.str (d.off_topic_message.getD
      "Please respond to the current survey question or let me know if you'd like to skip.") ∧
    (offTopicResponse st d).2 = appendHistory st "assistant"
      (PyVal.str (d.off_topic_message.getD
        "Please respond to the current survey question or let me know if you'd like to skip."))
      (some cid) ∧
    (offTopicResponse st d).2.answers = st.answers ∧
    (offTopicResponse st d).2.question_status = st.question_status ∧
    (offTopicResponse st d).2.current_question_id = st.current_question_id := by
  refine ⟨?_, rfl, ?_, rfl, rfl, rfl⟩
  · simp [nextStep, hterm, hmark, moderateAnswer, hmodflag, hoff]
  · simp [offTopicResponse, appendHistory, hcur]

/-- Witness for the amended C7 on `dMod` (moderation enabled). -/
theorem C7_off_topic_turn_witness :
    nextStep dMod (fun _ _ => false) (fun _ _ _ => respVal (PyVal.str "Yes") (some "Q2"))
        (some stMod) "s" "v" (some "noise")
      = Except.ok (offTopicResponse stMod dMod) ∧
    (offTopicResponse stMod dMod).1.message = PyVal.str "Stay on topic." ∧
    (offTopicResponse stMod dMod).2 = appendHistory stMod "assistant"
      (PyVal.str "Stay on topic.") (some "Q1") ∧
    (offTopicResponse stMod dMod).2.answers = stMod.answers ∧
    (offTopicResponse stMod dMod).2.question_status = stMod.question_status ∧
    (offTopicResponse stMod dMod).2.current_question_id = stMod.current_question_id := by
  have h := C7_off_topic_turn dMod (fun _ _ => false)
    (fun _ _ _ => respVal (PyVal.str "Yes") (some "Q2")) stMod "s" "v" "noise" "Q1"
    rfl rfl (by decide) rfl rfl
  exact h

/-! ### Projection lemmas and the active-turn reduction of `next_step` -/

@[simp] theorem mark_current_question_id (st : SessionState) (d : SurveyDef) :
    (markConditionallySkipped st d).current_question_id = st.current_question_id := rfl

@[simp] theorem mark_answers (st : SessionState) (d : SurveyDef) :
    (markConditionallySkipped st d).answers = st.answers := rfl

@[simp] theorem mark_history (st : SessionState) (d : SurveyDef) :
    (markConditionallySkipped st d).history = st.history := rfl

@[simp] theorem mark_terminated (st : SessionState) (d : SurveyDef) :
    (markConditionallySkipped st d).terminated = st.terminated := rfl

@[simp] theorem mark_session_id (st : SessionState) (d : SurveyDef) :
    (markConditionallySkipped st d).session_id = st.session_id := rfl

@[simp] theorem append_current_question_id (st : SessionState) (r : String) (c : PyVal)
    (q : Option String) : (appendHistory st r c q).current_question_id = st.current_question_id := rfl

@[simp] theorem append_question_status (st : SessionState) (r : String) (c : PyVal)
    (q : Option String) : (appendHistory st r c q).question_status = st.question_status := rfl

@[simp] theorem append_answers (st : SessionState) (r : String) (c : PyVal)
    (q : Option String) : (appendHistory st r c q).answers = st.answers := rfl

@[simp] theorem append_terminated (st : SessionState) (r : String) (c : PyVal)
    (q : Option String) : (appendHistory st r c q).terminated = st.terminated := rfl

@[simp] theorem append_session_id (st : SessionState) (r : String) (c : PyVal)
    (q : Option String) : (appendHistory st r c q).session_id = st.session_id := rfl

@[simp] theorem store_current_question_id (st : SessionState) (q : Question) (v : PyVal) :
    (storeAnswer st q v).current_question_id = st.current_question_id := rfl

@[simp] theorem store_history (st : SessionState) (q : Question) (v : PyVal) :
    (storeAnswer st q v).history = st.history := rfl

@[simp] theorem store_terminated (st : SessionState) (q : Question) (v : PyVal) :
    (storeAnswer st q v).terminated = st.terminated := rfl

@[simp] theorem store_session_id (st : SessionState) (q : Question) (v : PyVal) :
    (storeAnswer st q v).session_id = st.session_id := rfl

/-- On an active, on-topic turn with a current question, `next_step` is the
user-message append followed by the port consultation and
`clarifyOrAnswer`. -/
theorem nextStep_active (d : SurveyDef) (mod : ModOracle) (port : PortFn)
    (st : SessionState) (sid svid : String) (msg : Option String) (cq : Question)
    (hterm : st.terminated = false)
    (hmod : moderateAnswer d mod msg (markConditionallySkipped st d).history = true)
    (hbind : (markConditionallySkipped st d).current_question_id.bind (getQuestion d) = some cq) :
    nextStep d mod port (some st) sid svid msg =
      clarifyOrAnswer d
        (appendHistory (markConditionallySkipped st d) "user"
          (PyVal.str (msg.getD "")) (some cq.id)) cq sid
        (port (appendHistory (markConditionallySkipped st d) "user"
          (PyVal.str (msg.getD "")) (some cq.id)).toLlm d (msg.getD "")) := by
  simp only [nextStep, hterm, hmod, hbind, Bool.false_eq_true, if_false, reduceIte]
  rw [if_neg (by decide)]

/-- The port is consulted exactly at `portInput` on the active path. -/
theorem portInput_active (d : SurveyDef) (st : SessionState) (msg : Option String)
    (cq : Question)
    (hbind : (markConditionallySkipped st d).current_question_id.bind (getQuestion d) = some cq) :
    portInput d st msg =
      (appendHistory (markConditionallySkipped st d) "user"
        (PyVal.str (msg.getD "")) (some cq.id)).toLlm := by
  simp only [portInput, hbind]

/-! ### C5 -/

theorem clarifyDecision_forced (valid needsClar portFlag : Bool)
    (h : valid = false ∨ portFlag = true ∨ needsClar = true) :
    clarifyDecision valid needsClar portFlag = true := by
  cases valid <;> cases needsClar <;> cases portFlag <;>
    first
      | rfl
      | (rcases h with h | h | h <;> simp at h)

/-- C5: whenever the normalizer reports the parsed value invalid — or the
port flags clarification — the turn is a clarification turn even if the port
did not set the flag: `next_step` returns the clarification text (the port's
if truthy, else the current question's own text), stores no answer, and the
persisted state keeps the same `current_question_id` with its `asked`
status. -/
theorem C5_invalid_forces_clarification (d : SurveyDef) (mod : ModOracle) (port : PortFn)
    (st : SessionState) (sid svid : String) (msg : Option String) (cid : String)
    (cq : Question) (f : PortFields) (qd pv : Option PyVal)
    (hterm : st.terminated = false)
    (hcur : st.current_question_id = some cid)
    (hq : getQuestion d cid = some cq)
    (hmod : moderateAnswer d mod msg (markConditionallySkipped st d).history = true)
    (hport : port (portInput d st msg) d (msg.getD "") = PortResponse.dict f)
    (hpa : extractPA (PortResponse.dict f) = PAField.pdict qd pv)
    (hclar : (normalizeAnswer cq (pv.getD PyVal.pynone)).2.1 = false ∨
             (f.need_clarification.getD PyVal.pynone).truthy = true ∨
             (normalizeAnswer cq (pv.getD PyVal.pynone)).2.2 = true)
    (hasked : dictGet st.question_status cid = some QStatus.asked) :
    ∃ st1, nextStep d mod port (some st) sid svid msg =
        Except.ok ({ session_id := st.session_id, interview_id := Option.none
                     message := if (f.clarification_question.getD PyVal.pynone).truthy then
                         f.clarification_question.getD PyVal.pynone
                       else PyVal.str cq.text }, st1) ∧
      st1.current_question_id = some cid ∧
      dictGet st1.question_status cid = some QStatus.asked ∧
      st1.answers = st.answers := by
  have hbind : (markConditionallySkipped st d).current_question_id.bind (getQuestion d)
      = some cq := by
    show st.current_question_id.bind (getQuestion d) = some cq
    rw [hcur]
    exact hq
  have hD := clarifyDecision_forced (normalizeAnswer cq (pv.getD PyVal.pynone)).2.1
    (normalizeAnswer cq (pv.getD PyVal.pynone)).2.2
    (f.need_clarification.getD PyVal.pynone).truthy hclar
  rw [nextStep_active d mod port st sid svid msg cq hterm hmod hbind,
    ← portInput_active d st msg cq hbind, hport]
  refine ⟨appendHistory
      (appendHistory (markConditionallySkipped st d) "user"
        (PyVal.str (msg.getD "")) (some cq.id)) "assistant"
      (if (f.clarification_question.getD PyVal.pynone).truthy then
        f.clarification_question.getD PyVal.pynone
      else PyVal.str cq.text) (some cq.id), ?_, ?_, ?_, ?_⟩
  · simp only [clarifyOrAnswer, hpa, hD, if_true, reduceIte]
    rfl
  · simpa using hcur
  · exact mark_preserves_asked st d cid hasked
  · rfl

/-- Witness for C5: option `"Maybe"` is not among `["Yes","No"]`, the port
does not flag clarification, and the turn still clarifies, keeping `Q1`
current and `asked` and storing nothing. -/
theorem C5_invalid_forces_clarification_witness :
    ∃ st1, nextStep dT3 (fun _ _ => true)
        (fun _ _ _ => respVal (PyVal.str "Maybe") (some "Q2"))
        (some stT3) "s" "v" (some "maybe")
        = Except.ok ({ session_id := "s", interview_id := Option.none
                       message := PyVal.str "one?" }, st1) ∧
      st1.current_question_id = some "Q1" ∧
      dictGet st1.question_status "Q1" = some QStatus.asked ∧
      st1.answers = stT3.answers :=
  C5_invalid_forces_clarification dT3 (fun _ _ => true)
    (fun _ _ _ => respVal (PyVal.str "Maybe") (some "Q2"))
    stT3 "s" "v" (some "maybe") "Q1" qY1
    { parsed_answer := some (PAField.pdict (some (PyVal.str "Q1")) (some (PyVal.str "Maybe")))
      need_clarification := some (PyVal.bool false)
      clarification_question := Option.none
      next_question_id := some (PyVal.str "Q2")
      assistant_question_text := Option.none }
    (some (PyVal.str "Q1")) (some (PyVal.str "Maybe"))
    rfl rfl rfl rfl rfl rfl (Or.inl (by decide)) rfl

/-! ### C2 -/

theorem eligLoop_mem (qs : List Question) (st : SessionState) (q' : Question)
    (h : q' ∈ (eligLoop st qs).1) : q' ∈ qs := by
  induction qs generalizing st with
  | nil => cases h
  | cons q rest ih =>
    unfold eligLoop at h
    split at h
    · exact List.mem_cons_of_mem q (ih st h)
    · exact List.mem_cons_of_mem q (ih st h)
    · split at h
      · rcases List.mem_cons.mp h with h | h
        · exact h ▸ List.mem_cons_self q rest
        · exact List.mem_cons_of_mem q (ih st h)
      · exact List.mem_cons_of_mem q (ih _ h)

theorem detNextLoop_mem (qs : List Question) (st : SessionState) (nid : String)
    (h : (detNextLoop st qs).1 = some nid) : ∃ q ∈ qs, q.id = nid := by
  induction qs generalizing st with
  | nil => cases h
  | cons q rest ih =>
    unfold detNextLoop at h
    split at h
    · obtain ⟨q', hq', hid⟩ := ih st h
      exact ⟨q', List.mem_cons_of_mem q hq', hid⟩
    · obtain ⟨q', hq', hid⟩ := ih st h
      exact ⟨q', List.mem_cons_of_mem q hq', hid⟩
    · split at h
      · injection h with h
        exact ⟨q, List.mem_cons_self q rest, h⟩
      · obtain ⟨q', hq', hid⟩ := ih _ h
        exact ⟨q', List.mem_cons_of_mem q hq', hid⟩

theorem dictGet_isSome_dictSet {α : Type} (m : List (String × α)) (k k' : String) (v : α)
    (h : (dictGet m k').isSome) : (dictGet (dictSet m k v) k').isSome := by
  by_cases hk : k' = k
  · subst hk
    rw [dictGet_dictSet_self]
    rfl
  · rw [dictGet_dictSet_ne m k k' v hk]
    exact h

theorem foldl_questionMap_isSome (qs : List Question) (acc : List (String × Question))
    (id : String) (h : (dictGet acc id).isSome ∨ ∃ q ∈ qs, q.id = id) :
    (dictGet (qs.foldl (fun a q => dictSet a q.id q) acc) id).isSome := by
  induction qs generalizing acc with
  | nil =>
    rcases h with h | ⟨q, hq, _⟩
    · exact h
    · cases hq
  | cons q rest ih =>
    refine ih (dictSet acc q.id q) ?_
    rcases h with h | ⟨q', hq', hid⟩
    · exact Or.inl (dictGet_isSome_dictSet acc q.id id q h)
    · rcases List.mem_cons.mp hq' with h | h
      · subst h
        subst hid
        rw [dictGet_dictSet_self]
        exact Or.inl rfl
      · exact Or.inr ⟨q', h, hid⟩

theorem getQuestion_some_of_mem (d : SurveyDef) (id : String)
    (h : ∃ q ∈ d.questions, q.id = id) : ∃ q, getQuestion d id = some q := by
  have := foldl_questionMap_isSome d.questions [] id (Or.inr h)
  unfold getQuestion questionMap
  cases hg : dictGet (d.questions.foldl (fun a q => dictSet a q.id q) []) id with
  | none => rw [hg] at this; cases this
  | some q => exact ⟨q, rfl⟩

/-- The state after line 201 of `next_step`: skips re-marked, the user
message appended under the current question, the normalized answer stored. -/
def storedState (d : SurveyDef) (st : SessionState) (msg : Option String)
    (cq : Question) (nv : PyVal) : SessionState :=
  storeAnswer
    (appendHistory (markConditionallySkipped st d) "user"
      (PyVal.str (msg.getD "")) (some cq.id)) cq nv

/-- The eligible-question ids computed at line 203 (after storing). -/
def allowedIds (d : SurveyDef) (st3 : SessionState) : List String :=
  (eligibleQuestions st3 d).1.map (fun q => q.id)

/-- The Progression Policy's own candidate computed at line 204. -/
def policyCandidate (d : SurveyDef) (st3 : SessionState) : Option String :=
  (deterministicNextQuestion (eligibleQuestions st3 d).2 d).1

/-- The state carrying the policy's skip re-markings, as saved afterwards. -/
def policyState (d : SurveyDef) (st3 : SessionState) : SessionState :=
  (deterministicNextQuestion (eligibleQuestions st3 d).2 d).2

/-- Lines 202-206 of `next_step`: the proposed next-question id is adopted
iff it is a member of the eligible set; otherwise the policy's candidate is
used. -/
def selectedNextId (d : SurveyDef) (st3 : SessionState) (proposal : PyVal) :
    Option String :=
  match proposal with
  | PyVal.str v => if v ∈ allowedIds d st3 then some v else policyCandidate d st3
  | _ => policyCandidate d st3

theorem selectedNextId_mem (d : SurveyDef) (st3 : SessionState) (proposal : PyVal)
    (v : String) (h : selectedNextId d st3 proposal = some v) :
    ∃ q ∈ d.questions, q.id = v := by
  have hpol : ∀ u : String, policyCandidate d st3 = some u → ∃ q ∈ d.questions, q.id = u := by
    intro u hu
    unfold policyCandidate deterministicNextQuestion at hu
    obtain ⟨q, hq, hid⟩ := detNextLoop_mem _ _ u hu
    exact ⟨q, List.mem_of_mem_drop hq, hid⟩
  unfold selectedNextId at h
  split at h
  · rename_i w
    split at h
    · rename_i hw
      injection h with h
      subst h
      obtain ⟨q, hq, hid⟩ := List.mem_map.mp hw
      exact ⟨q, eligLoop_mem _ _ q hq, hid⟩
    · exact hpol v h
  · exact hpol v h

/-- The answer-recording path of `next_step`: the next current question is
`selectedNextId`, or the session terminates when that is empty. -/
theorem nextStep_answer_path (d : SurveyDef) (mod : ModOracle) (port : PortFn)
    (st : SessionState) (sid svid : String) (msg : Option String) (cid : String)
    (cq : Question) (f : PortFields) (qd pv : Option PyVal) (nv : PyVal)
    (hterm : st.terminated = false)
    (hcur : st.current_question_id = some cid)
    (hq : getQuestion d cid = some cq)
    (hmod : moderateAnswer d mod msg (markConditionallySkipped st d).history = true)
    (hport : port (portInput d st msg) d (msg.getD "") = PortResponse.dict f)
    (hpa : extractPA (PortResponse.dict f) = PAField.pdict qd pv)
    (hnorm : normalizeAnswer cq (pv.getD PyVal.pynone) = (nv, true, false))
    (hflag : (f.need_clarification.getD PyVal.pynone).truthy = false)
    (hids : ∀ q ∈ d.questions, q.id ≠ "") :
    ∃ r st1, nextStep d mod port (some st) sid svid msg = Except.ok (r, st1) ∧
      ((∃ v, selectedNextId d (storedState d st msg cq nv)
          (f.next_question_id.getD PyVal.pynone) = some v ∧
        st1.current_question_id = some v ∧ st1.terminated = false) ∨
       (selectedNextId d (storedState d st msg cq nv)
          (f.next_question_id.getD PyVal.pynone) = Option.none ∧
        st1.terminated = true)) := by
  have hbind : (markConditionallySkipped st d).current_question_id.bind (getQuestion d)
      = some cq := by
    show st.current_question_id.bind (getQuestion d) = some cq
    rw [hcur]
    exact hq
  rw [nextStep_active d mod port st sid svid msg cq hterm hmod hbind,
    ← portInput_active d st msg cq hbind, hport]
  simp only [clarifyOrAnswer, hpa, hnorm, hflag,
    show clarifyDecision true false false = false from rfl, Bool.false_eq_true, if_false,
    reduceIte]
  have hterm3 : (policyState d (storedState d st msg cq nv)).terminated = false := by
    obtain ⟨S1, h1⟩ := eligibleQuestions_shape (storedState d st msg cq nv) d
    obtain ⟨S2, h2⟩ :=
      deterministicNextQuestion_shape (eligibleQuestions (storedState d st msg cq nv) d).2 d
    unfold policyState
    rw [h2, h1]
    exact hterm
  rcases hsel : selectedNextId d (storedState d st msg cq nv)
      (f.next_question_id.getD PyVal.pynone) with _ | v
  · refine ⟨(terminateWithEnd sid Option.none d
        (policyState d (storedState d st msg cq nv))).1,
      (terminateWithEnd sid Option.none d (policyState d (storedState d st msg cq nv))).2,
      ?_, Or.inr ⟨rfl, rfl⟩⟩
    show advanceFinish d sid (policyState d (storedState d st msg cq nv))
      (selectedNextId d (storedState d st msg cq nv)
        (f.next_question_id.getD PyVal.pynone))
      (f.assistant_question_text.getD PyVal.pynone) = _
    rw [hsel]
    rfl
  · obtain ⟨q', hq', hqid⟩ := selectedNextId_mem d (storedState d st msg cq nv)
      (f.next_question_id.getD PyVal.pynone) v hsel
    have hvne : ¬ v = "" := hqid ▸ hids q' hq'
    obtain ⟨nq, hnq⟩ := getQuestion_some_of_mem d v ⟨q', hq', hqid⟩
    refine ⟨{ session_id := sid, interview_id := Option.none
              message := if (f.assistant_question_text.getD PyVal.pynone).truthy then
                  f.assistant_question_text.getD PyVal.pynone
                else PyVal.str nq.text },
      appendHistory
        { policyState d (storedState d st msg cq nv) with
          current_question_id := some v
          question_status :=
            dictSet (policyState d (storedState d st msg cq nv)).question_status v
              QStatus.asked } "assistant"
        (if (f.assistant_question_text.getD PyVal.pynone).truthy then
            f.assistant_question_text.getD PyVal.pynone
          else PyVal.str nq.text) (some v),
      ?_, Or.inl ⟨v, rfl, rfl, hterm3⟩⟩
    show advanceFinish d sid (policyState d (storedState d st msg cq nv))
      (selectedNextId d (storedState d st msg cq nv)
        (f.next_question_id.getD PyVal.pynone))
      (f.assistant_question_text.getD PyVal.pynone) = _
    rw [hsel]
    simp only [advanceFinish, hnq, if_neg hvne]

/-- C2: on a turn that records an answer, the question adopted as the next
current question is `selectedNextId` — the port's proposal exactly when it
is a member of the eligible set computed after storing the answer, and
otherwise the Progression Policy's own candidate; when the selection is
empty the session terminates instead. -/
theorem C2_proposal_bounded_by_eligible (d : SurveyDef) (mod : ModOracle) (port : PortFn)
    (st : SessionState) (sid svid : String) (msg : Option String) (cid : String)
    (cq : Question) (f : PortFields) (qd pv : Option PyVal) (nv : PyVal)
    (hterm : st.terminated = false)
    (hcur : st.current_question_id = some cid)
    (hq : getQuestion d cid = some cq)
    (hmod : moderateAnswer d mod msg (markConditionallySkipped st d).history = true)
    (hport : port (portInput d st msg) d (msg.getD "") = PortResponse.dict f)
    (hpa : extractPA (PortResponse.dict f) = PAField.pdict qd pv)
    (hnorm : normalizeAnswer cq (pv.getD PyVal.pynone) = (nv, true, false))
    (hflag : (f.need_clarification.getD PyVal.pynone).truthy = false)
    (hids : ∀ q ∈ d.questions, q.id ≠ "") :
    ∃ r st1, nextStep d mod port (some st) sid svid msg = Except.ok (r, st1) ∧
      ((∃ v, selectedNextId d (storedState d st msg cq nv)
          (f.next_question_id.getD PyVal.pynone) = some v ∧
        st1.current_question_id = some v ∧ st1.terminated = false) ∨
       (selectedNextId d (storedState d st msg cq nv)
          (f.next_question_id.getD PyVal.pynone) = Option.none ∧
        st1.terminated = true)) :=
  nextStep_answer_path d mod port st sid svid msg cid cq f qd pv nv
    hterm hcur hq hmod hport hpa hnorm hflag hids

/-- Witness for C2: the port proposes `Q3` while `Q2` is still eligible;
`Q3` is in the eligible set and is adopted. -/
theorem C2_proposal_bounded_by_eligible_witness :
    ∃ r st1, nextStep dT3 (fun _ _ => true)
        (fun _ _ _ => respVal (PyVal.str "Yes") (some "Q3")) (some stT3) "s" "v" (some "yes")
        = Except.ok (r, st1) ∧
      ((∃ v, selectedNextId dT3 (storedState dT3 stT3 (some "yes") qY1 (PyVal.str "Yes"))
          (PyVal.str "Q3") = some v ∧
        st1.current_question_id = some v ∧ st1.terminated = false) ∨
       (selectedNextId dT3 (storedState dT3 stT3 (some "yes") qY1 (PyVal.str "Yes"))
          (PyVal.str "Q3") = Option.none ∧
        st1.terminated = true)) :=
  C2_proposal_bounded_by_eligible dT3 (fun _ _ => true)
    (fun _ _ _ => respVal (PyVal.str "Yes") (some "Q3")) stT3 "s" "v" (some "yes") "Q1" qY1
    { parsed_answer := some (PAField.pdict (some (PyVal.str "Q1")) (some (PyVal.str "Yes")))
      need_clarification := some (PyVal.bool false)
      clarification_question := Option.none
      next_question_id := some (PyVal.str "Q3")
      assistant_question_text := Option.none }
    (some (PyVal.str "Q1")) (some (PyVal.str "Yes")) (PyVal.str "Yes")
    rfl rfl rfl rfl rfl rfl rfl rfl (by decide)

/-! ### C4 amended -/

theorem foldl_questionMap_mem (qs : List Question) (acc : List (String × Question))
    (id : String) (h : (dictGet (qs.foldl (fun a q => dictSet a q.id q) acc) id).isSome) :
    (dictGet acc id).isSome ∨ ∃ q ∈ qs, q.id = id := by
  induction qs generalizing acc with
  | nil => exact Or.inl h
  | cons q rest ih =>
    rcases ih (dictSet acc q.id q) h with h1 | ⟨q', hq', hid⟩
    · by_cases hk : id = q.id
      · exact Or.inr ⟨q, List.mem_cons_self q rest, hk.symm⟩
      · rw [dictGet_dictSet_ne acc q.id id q hk] at h1
        exact Or.inl h1
    · exact Or.inr ⟨q', List.mem_cons_of_mem q hq', hid⟩

theorem getQuestion_mem_of_some (d : SurveyDef) (id : String) (q : Question)
    (h : getQuestion d id = some q) : ∃ q' ∈ d.questions, q'.id = id := by
  have hs : (dictGet (d.questions.foldl (fun a q => dictSet a q.id q) []) id).isSome := by
    unfold getQuestion questionMap at h
    rw [h]
    rfl
  rcases foldl_questionMap_mem d.questions [] id hs with h1 | h1
  · cases h1
  · exact h1

theorem indexOf_ge_of_mem_drop (l : List String) (n : Nat) (a : String)
    (hn : l.Nodup) (h : a ∈ l.drop n) : n ≤ l.indexOf a := by
  induction l generalizing n with
  | nil => rw [List.drop_nil] at h; cases h
  | cons x xs ih =>
    cases n with
    | zero => exact Nat.zero_le _
    | succ n =>
      rw [List.drop_succ_cons] at h
      have hmem : a ∈ xs := List.mem_of_mem_drop h
      have hax : x ≠ a := by
        rintro rfl
        exact (List.nodup_cons.mp hn).1 hmem
      rw [List.indexOf_cons_ne _ hax]
      exact Nat.succ_le_succ (ih n (List.nodup_cons.mp hn).2 h)

/-- C4 as amended: definition-order asking holds for the policy's own
candidate — on a turn that records an answer and in which the port's
proposal is *not* adopted (it is not a member of the eligible set), any next
question the turn asks occurs strictly after the previous current question
in definition order.  The unrestricted claim fails because an adopted port
proposal can jump ahead, after which earlier questions are still eligible
and asked later (`C4_out_of_order_counterexample`). -/
theorem C4_policy_candidate_strictly_later (d : SurveyDef) (mod : ModOracle)
    (port : PortFn) (st : SessionState) (sid svid : String) (msg : Option String)
    (cid : String) (cq : Question) (f : PortFields) (qd pv : Option PyVal) (nv : PyVal)
    (hterm : st.terminated = false)
    (hcur : st.current_question_id = some cid)
    (hq : getQuestion d cid = some cq)
    (hmod : moderateAnswer d mod msg (markConditionallySkipped st d).history = true)
    (hport : port (portInput d st msg) d (msg.getD "") = PortResponse.dict f)
    (hpa : extractPA (PortResponse.dict f) = PAField.pdict qd pv)
    (hnorm : normalizeAnswer cq (pv.getD PyVal.pynone) = (nv, true, false))
    (hflag : (f.need_clarification.getD PyVal.pynone).truthy = false)
    (hids : ∀ q ∈ d.questions, q.id ≠ "")
    (hnodup : (d.questions.map (fun q => q.id)).Nodup)
    (hprop : ∀ w : String, f.next_question_id.getD PyVal.pynone = PyVal.str w →
      w ∉ allowedIds d (storedState d st msg cq nv)) :
    ∃ r st1, nextStep d mod port (some st) sid svid msg = Except.ok (r, st1) ∧
      ∀ nid, st1.terminated = false → st1.current_question_id = some nid →
        (d.questions.map (fun q => q.id)).indexOf cid <
          (d.questions.map (fun q => q.id)).indexOf nid := by
  obtain ⟨r, st1, hstep, hcase⟩ := nextStep_answer_path d mod port st sid svid msg cid cq
    f qd pv nv hterm hcur hq hmod hport hpa hnorm hflag hids
  refine ⟨r, st1, hstep, ?_⟩
  intro nid hterm1 hcur1
  rcases hcase with ⟨v, hselv, hcurv, -⟩ | ⟨-, hT⟩
  · have hvn : nid = v := by
      rw [hcur1] at hcurv
      exact Option.some.inj hcurv
    subst hvn
    have hpolv : policyCandidate d (storedState d st msg cq nv) = some nid := by
      rcases hgp : f.next_question_id.getD PyVal.pynone with w | vs | _ | n | b <;>
        rw [hgp] at hselv <;>
        simp only [selectedNextId] at hselv
      · rw [if_neg (hprop w hgp)] at hselv
        exact hselv
      all_goals exact hselv
    have hcidmem : cid ∈ d.questions.map (fun q => q.id) := by
      obtain ⟨q', hq', hid⟩ := getQuestion_mem_of_some d cid cq hq
      exact List.mem_map.mpr ⟨q', hq', hid⟩
    have hcur3 : (eligibleQuestions (storedState d st msg cq nv) d).2.current_question_id
        = some cid := by
      obtain ⟨S1, h1⟩ := eligibleQuestions_shape (storedState d st msg cq nv) d
      rw [h1]
      exact hcur
    simp only [policyCandidate, deterministicNextQuestion, hcur3] at hpolv
    rw [if_pos hcidmem] at hpolv
    obtain ⟨q2, hq2, hq2id⟩ := detNextLoop_mem _ _ nid hpolv
    have hnidmem : nid ∈ (d.questions.map (fun q => q.id)).drop
        ((d.questions.map (fun q => q.id)).indexOf cid + 1) := by
      rw [← List.map_drop]
      exact List.mem_map.mpr ⟨q2, hq2, hq2id⟩
    exact Nat.lt_of_succ_le
      (indexOf_ge_of_mem_drop _ _ nid hnodup hnidmem)
  · rw [hterm1] at hT
    cases hT

/-- Witness for the amended C4: the port proposes the already-answered `Q1`,
which is not eligible; the policy advances from `Q1` to `Q2`, strictly later
in definition order. -/
theorem C4_policy_candidate_strictly_later_witness :
    ∃ r st1, nextStep dT3 (fun _ _ => true)
        (fun _ _ _ => respVal (PyVal.str "Yes") (some "Q1")) (some stT3) "s" "v" (some "yes")
        = Except.ok (r, st1) ∧
      ∀ nid, st1.terminated = false → st1.current_question_id = some nid →
        (dT3.questions.map (fun q => q.id)).indexOf "Q1" <
          (dT3.questions.map (fun q => q.id)).indexOf nid :=
  C4_policy_candidate_strictly_later dT3 (fun _ _ => true)
    (fun _ _ _ => respVal (PyVal.str "Yes") (some "Q1")) stT3 "s" "v" (some "yes") "Q1" qY1
    { parsed_answer := some (PAField.pdict (some (PyVal.str "Q1")) (some (PyVal.str "Yes")))
      need_clarification := some (PyVal.bool false)
      clarification_question := Option.none
      next_question_id := some (PyVal.str "Q1")
      assistant_question_text := Option.none }
    (some (PyVal.str "Q1")) (some (PyVal.str "Yes")) (PyVal.str "Yes")
    rfl rfl rfl rfl rfl rfl rfl rfl (by decide) (by decide)
    (by
      intro w hw
      have hww : w = "Q1" := by
        injection hw with h2
        exact h2.symm
      subst hww
      decide)

/-! ### C8: determinism of the asked sequence -/

@[simp] theorem hist_update_question_status (st : SessionState) (H : List HistoryEntry) :
    ({ st with history := H } : SessionState).question_status = st.question_status := rfl

@[simp] theorem hist_update_answers (st : SessionState) (H : List HistoryEntry) :
    ({ st with history := H } : SessionState).answers = st.answers := rfl

@[simp] theorem hist_update_current (st : SessionState) (H : List HistoryEntry) :
    ({ st with history := H } : SessionState).current_question_id = st.current_question_id := rfl

@[simp] theorem hist_update_terminated (st : SessionState) (H : List HistoryEntry) :
    ({ st with history := H } : SessionState).terminated = st.terminated := rfl

@[simp] theorem hist_update_session_id (st : SessionState) (H : List HistoryEntry) :
    ({ st with history := H } : SessionState).session_id = st.session_id := rfl

theorem hist_update_swap (st : SessionState) (H : List HistoryEntry)
    (X : List (String × QStatus)) :
    ({ { st with history := H } with question_status := X } : SessionState)
      = { { st with question_status := X } with history := H } := rfl

theorem detNextLoop_hist (qs : List Question) (st : SessionState) (H : List HistoryEntry) :
    detNextLoop { st with history := H } qs
      = ((detNextLoop st qs).1, { (detNextLoop st qs).2 with history := H }) := by
  induction qs generalizing st with
  | nil => rfl
  | cons q rest ih =>
    unfold detNextLoop
    simp only [hist_update_question_status, hist_update_answers]
    rcases hd : dictGet st.question_status q.id with _ | s
    · simp only [hd]
      by_cases hc : isConditionMet q st.answers
      · simp only [hc, if_true, reduceIte]
      · simp only [hc, Bool.false_eq_true, if_false, reduceIte, hist_update_swap]
        exact ih { st with question_status := dictSet st.question_status q.id QStatus.skipped }
    · cases s with
      | unasked =>
        simp only [hd]
        by_cases hc : isConditionMet q st.answers
        · simp only [hc, if_true, reduceIte]
        · simp only [hc, Bool.false_eq_true, if_false, reduceIte, hist_update_swap]
          exact ih { st with question_status := dictSet st.question_status q.id QStatus.skipped }
      | asked =>
        simp only [hd]
        by_cases hc : isConditionMet q st.answers
        · simp only [hc, if_true, reduceIte]
        · simp only [hc, Bool.false_eq_true, if_false, reduceIte, hist_update_swap]
          exact ih { st with question_status := dictSet st.question_status q.id QStatus.skipped }
      | answered =>
        simp only [hd]
        exact ih st
      | skipped =>
        simp only [hd]
        exact ih st

theorem eligLoop_hist (qs : List Question) (st : SessionState) (H : List HistoryEntry) :
    eligLoop { st with history := H } qs
      = ((eligLoop st qs).1, { (eligLoop st qs).2 with history := H }) := by
  induction qs generalizing st with
  | nil => rfl
  | cons q rest ih =>
    unfold eligLoop
    simp only [hist_update_question_status, hist_update_answers]
    rcases hd : dictGet st.question_status q.id with _ | s
    · simp only [hd]
      by_cases hc : isConditionMet q st.answers
      · simp only [hc, if_true, reduceIte, ih st]
      · simp only [hc, Bool.false_eq_true, if_false, reduceIte, hist_update_swap]
        exact ih { st with question_status := dictSet st.question_status q.id QStatus.skipped }
    · cases s with
      | unasked =>
        simp only [hd]
        by_cases hc : isConditionMet q st.answers
        · simp only [hc, if_true, reduceIte, ih st]
        · simp only [hc, Bool.false_eq_true, if_false, reduceIte, hist_update_swap]
          exact ih { st with question_status := dictSet st.question_status q.id QStatus.skipped }
      | asked =>
        simp only [hd]
        by_cases hc : isConditionMet q st.answers
        · simp only [hc, if_true, reduceIte, ih st]
        · simp only [hc, Bool.false_eq_true, if_false, reduceIte, hist_update_swap]
          exact ih { st with question_status := dictSet st.question_status q.id QStatus.skipped }
      | answered =>
        simp only [hd]
        exact ih st
      | skipped =>
        simp only [hd]
        exact ih st

theorem mark_hist (st : SessionState) (H : List HistoryEntry) (d : SurveyDef) :
    markConditionallySkipped { st with history := H } d
      = { markConditionallySkipped st d with history := H } := rfl

theorem deterministicNextQuestion_hist (st : SessionState) (H : List HistoryEntry)
    (d : SurveyDef) :
    deterministicNextQuestion { st with history := H } d
      = ((deterministicNextQuestion st d).1,
         { (deterministicNextQuestion st d).2 with history := H }) := by
  unfold deterministicNextQuestion
  simp only [hist_update_current]
  rw [mark_hist]
  exact detNextLoop_hist _ _ H

theorem eligibleQuestions_hist (st : SessionState) (H : List HistoryEntry) (d : SurveyDef) :
    eligibleQuestions { st with history := H } d
      = ((eligibleQuestions st d).1, { (eligibleQuestions st d).2 with history := H }) := by
  unfold eligibleQuestions
  rw [mark_hist]
  exact eligLoop_hist _ _ H

theorem storeAnswer_hist (st : SessionState) (H : List HistoryEntry) (q : Question)
    (v : PyVal) :
    storeAnswer { st with history := H } q v = { storeAnswer st q v with history := H } := rfl

/-- The relation produced by one lockstep turn: identical crashes, or states
that agree on everything but the transcript. -/
def stepRel : Except Crash (StepResult × SessionState) →
    Except Crash (StepResult × SessionState) → Prop
  | Except.error c, Except.error c' => c = c'
  | Except.ok p, Except.ok p' => ∃ H, p'.2 = { p.2 with history := H }
  | _, _ => False

/-- Two port responses that agree on everything the engine's control flow
reads — parsed answer, dictionary-ness, clarification flag and proposed next
question id; the two phrasing fields may differ arbitrarily. -/
def respSim (r r' : PortResponse) : Prop :=
  extractPA r = extractPA r' ∧ respIsDict r = respIsDict r' ∧
  respNeedClar r = respNeedClar r' ∧ respNextQ r = respNextQ r'

/-- Scripted turns with the same user message and moderation verdict whose
port responses are `respSim`-similar. -/
def turnSim (t t' : TurnInput) : Prop :=
  t.user_message = t'.user_message ∧ t.onTopic = t'.onTopic ∧ respSim t.resp t'.resp

theorem allowedIds_hist (d : SurveyDef) (st : SessionState) (H : List HistoryEntry) :
    allowedIds d { st with history := H } = allowedIds d st := by
  unfold allowedIds
  rw [eligibleQuestions_hist st H d]

theorem policyCandidate_hist (d : SurveyDef) (st : SessionState) (H : List HistoryEntry) :
    policyCandidate d { st with history := H } = policyCandidate d st := by
  unfold policyCandidate
  rw [eligibleQuestions_hist st H d,
    deterministicNextQuestion_hist (eligibleQuestions st d).2 H d]

theorem policyState_hist (d : SurveyDef) (st : SessionState) (H : List HistoryEntry) :
    policyState d { st with history := H } = { policyState d st with history := H } := by
  unfold policyState
  rw [eligibleQuestions_hist st H d,
    deterministicNextQuestion_hist (eligibleQuestions st d).2 H d]

theorem selectedNextId_hist (d : SurveyDef) (st : SessionState) (H : List HistoryEntry)
    (prop : PyVal) :
    selectedNextId d { st with history := H } prop = selectedNextId d st prop := by
  unfold selectedNextId
  cases prop <;>
    simp only [allowedIds_hist d st H, policyCandidate_hist d st H]

theorem advanceFinish_lockstep (d : SurveyDef) (sid : String) (P : SessionState)
    (H : List HistoryEntry) (sel : Option String) (araw araw' : PyVal) :
    stepRel (advanceFinish d sid P sel araw)
            (advanceFinish d sid { P with history := H } sel araw') := by
  unfold advanceFinish
  cases sel with
  | none =>
    refine ⟨H ++ [{ role := "assistant", content := PyVal.str (endMessage d)
                    question_id := Option.none }], ?_⟩
    rfl
  | some nid =>
    by_cases hne : nid = ""
    · simp only [hne, if_true, reduceIte]
      refine ⟨H ++ [{ role := "assistant", content := PyVal.str (endMessage d)
                      question_id := Option.none }], ?_⟩
      rfl
    · simp only [hne, if_false, reduceIte]
      rcases hq : getQuestion d nid with _ | nq
      · simp only [hq]
        rfl
      · simp only [hq]
        refine ⟨H ++ [{ role := "assistant"
                        content := if araw'.truthy then araw' else PyVal.str nq.text
                        question_id := some nid }], ?_⟩
        rfl

theorem advancePhase_lockstep (d : SurveyDef) (cq : Question) (sid : String)
    (nv prop araw araw' : PyVal) (st : SessionState) (H : List HistoryEntry) :
    stepRel (advancePhase d st cq sid nv prop araw)
            (advancePhase d { st with history := H } cq sid nv prop araw') := by
  have hL : advancePhase d st cq sid nv prop araw
      = advanceFinish d sid (policyState d (storeAnswer st cq nv))
          (selectedNextId d (storeAnswer st cq nv) prop) araw := rfl
  have hR : advancePhase d { st with history := H } cq sid nv prop araw'
      = advanceFinish d sid (policyState d { storeAnswer st cq nv with history := H })
          (selectedNextId d { storeAnswer st cq nv with history := H } prop) araw' := by
    rw [show advancePhase d { st with history := H } cq sid nv prop araw'
        = advanceFinish d sid (policyState d (storeAnswer { st with history := H } cq nv))
            (selectedNextId d (storeAnswer { st with history := H } cq nv) prop) araw'
        from rfl,
      storeAnswer_hist st H cq nv]
  rw [hL, hR, selectedNextId_hist d (storeAnswer st cq nv) H prop,
    policyState_hist d (storeAnswer st cq nv) H]
  exact advanceFinish_lockstep d sid (policyState d (storeAnswer st cq nv)) H
    (selectedNextId d (storeAnswer st cq nv) prop) araw araw'

theorem clarifyOrAnswer_respNonDict (d : SurveyDef) (st : SessionState) (cq : Question)
    (sid : String) (v : PyVal) :
    clarifyOrAnswer d st cq sid (PortResponse.nonDict v) = Except.error Crash.attributeError := rfl

theorem clarifyOrAnswer_extract_nonDict (d : SurveyDef) (st : SessionState) (cq : Question)
    (sid : String) (resp : PortResponse) (v : PyVal)
    (h : extractPA resp = PAField.nonDict v) :
    clarifyOrAnswer d st cq sid resp = Except.error Crash.attributeError := by
  simp only [clarifyOrAnswer, h]

theorem clarifyOrAnswer_dict_eq (d : SurveyDef) (st : SessionState) (cq : Question)
    (sid : String) (f : PortFields) (qd pv : Option PyVal)
    (hext : extractPA (PortResponse.dict f) = PAField.pdict qd pv) :
    clarifyOrAnswer d st cq sid (PortResponse.dict f)
      = if clarifyDecision (normalizeAnswer cq (pv.getD PyVal.pynone)).2.1
            (normalizeAnswer cq (pv.getD PyVal.pynone)).2.2
            (f.need_clarification.getD PyVal.pynone).truthy then
          Except.ok (handleClarification st cq.id
            (if (f.clarification_question.getD PyVal.pynone).truthy then
              f.clarification_question.getD PyVal.pynone
            else PyVal.str cq.text))
        else
          advancePhase d st cq sid (normalizeAnswer cq (pv.getD PyVal.pynone)).1
            (f.next_question_id.getD PyVal.pynone)
            (f.assistant_question_text.getD PyVal.pynone) := by
  simp only [clarifyOrAnswer, hext]

theorem appendHistory_hist (st : SessionState) (H : List HistoryEntry) (r : String)
    (c : PyVal) (q : Option String) :
    appendHistory { st with history := H } r c q
      = { appendHistory st r c q with
          history := H ++ [{ role := r, content := c, question_id := q }] } := rfl

theorem clarifyOrAnswer_lockstep (d : SurveyDef) (cq : Question) (sid : String)
    (resp resp' : PortResponse) (hsim : respSim resp resp')
    (st : SessionState) (H : List HistoryEntry) :
    stepRel (clarifyOrAnswer d st cq sid resp)
            (clarifyOrAnswer d { st with history := H } cq sid resp') := by
  obtain ⟨hpa, hdict, hclar, hnxt⟩ := hsim
  rcases hext : extractPA resp with ⟨qd, pv⟩ | v
  · have hext' : extractPA resp' = PAField.pdict qd pv := by rw [← hpa, hext]
    cases resp with
    | nonDict v0 =>
      cases resp' with
      | nonDict v1 =>
        rw [clarifyOrAnswer_respNonDict, clarifyOrAnswer_respNonDict]
        rfl
      | dict f' => exact absurd hdict (by simp [respIsDict])
    | dict f =>
      cases resp' with
      | nonDict v1 => exact absurd hdict (by simp [respIsDict])
      | dict f' =>
        rw [clarifyOrAnswer_dict_eq d st cq sid f qd pv hext,
          clarifyOrAnswer_dict_eq d { st with history := H } cq sid f' qd pv hext']
        have hcl2 : (f'.need_clarification.getD PyVal.pynone).truthy
            = (f.need_clarification.getD PyVal.pynone).truthy := hclar.symm
        have hnx2 : f'.next_question_id.getD PyVal.pynone
            = f.next_question_id.getD PyVal.pynone := hnxt.symm
        rw [hcl2, hnx2]
        by_cases hneed : clarifyDecision (normalizeAnswer cq (pv.getD PyVal.pynone)).2.1
            (normalizeAnswer cq (pv.getD PyVal.pynone)).2.2
            (f.need_clarification.getD PyVal.pynone).truthy = true
        · rw [if_pos hneed, if_pos hneed]
          refine ⟨H ++ [{ role := "assistant"
                          content := if (f'.clarification_question.getD PyVal.pynone).truthy then
                              f'.clarification_question.getD PyVal.pynone
                            else PyVal.str cq.text
                          question_id := some cq.id }], ?_⟩
          rfl
        · rw [if_neg hneed, if_neg hneed]
          exact advancePhase_lockstep d cq sid
            (normalizeAnswer cq (pv.getD PyVal.pynone)).1
            (f.next_question_id.getD PyVal.pynone)
            (f.assistant_question_text.getD PyVal.pynone)
            (f'.assistant_question_text.getD PyVal.pynone) st H
  · have hext' : extractPA resp' = PAField.nonDict v := by rw [← hpa, hext]
    rw [clarifyOrAnswer_extract_nonDict d st cq sid resp v hext,
      clarifyOrAnswer_extract_nonDict d { st with history := H } cq sid resp' v hext']
    rfl

theorem nextStep_terminated (d : SurveyDef) (mod : ModOracle) (port : PortFn)
    (st : SessionState) (sid svid : String) (msg : Option String)
    (h : st.terminated = true) :
    nextStep d mod port (some st) sid svid msg
      = Except.ok ({ session_id := sid, interview_id := Option.none
                     message := PyVal.str (endMessage d) }, st) := by
  simp only [nextStep, h, if_true, reduceIte]

theorem nextStep_offtopic (d : SurveyDef) (mod : ModOracle) (port : PortFn)
    (st : SessionState) (sid svid : String) (msg : Option String)
    (hterm : st.terminated = false)
    (hmod : moderateAnswer d mod msg (markConditionallySkipped st d).history = false) :
    nextStep d mod port (some st) sid svid msg
      = Except.ok (offTopicResponse (markConditionallySkipped st d) d) := by
  simp only [nextStep, hterm, Bool.false_eq_true, if_false, reduceIte, hmod, if_true]

theorem nextStep_nocurrent (d : SurveyDef) (mod : ModOracle) (port : PortFn)
    (st : SessionState) (sid svid : String) (msg : Option String)
    (hterm : st.terminated = false)
    (hmod : moderateAnswer d mod msg (markConditionallySkipped st d).history = true)
    (hbind : (markConditionallySkipped st d).current_question_id.bind (getQuestion d)
      = Option.none) :
    nextStep d mod port (some st) sid svid msg
      = Except.ok (terminateWithEnd sid Option.none d (markConditionallySkipped st d)) := by
  simp only [nextStep, hterm, Bool.false_eq_true, if_false, reduceIte, hmod, hbind]
  rw [if_neg (by decide)]

theorem nextStep_lockstep (d : SurveyDef) (sid svid : String) (t t' : TurnInput)
    (st : SessionState) (H : List HistoryEntry) (hsim : turnSim t t') :
    stepRel (nextStepScripted d t (some st) sid svid)
            (nextStepScripted d t' (some { st with history := H }) sid svid) := by
  obtain ⟨hmsg, htop, hrs⟩ := hsim
  unfold nextStepScripted
  by_cases hterm : st.terminated = true
  · rw [nextStep_terminated d _ _ st sid svid t.user_message hterm,
      nextStep_terminated d _ _ { st with history := H } sid svid t'.user_message hterm]
    exact ⟨H, rfl⟩
  · have hterm' : st.terminated = false := Bool.eq_false_iff.mpr hterm
    have hterm2 : ({ st with history := H } : SessionState).terminated = false := hterm'
    have hmodv : moderateAnswer d (fun _ _ => t'.onTopic) t'.user_message
        (markConditionallySkipped { st with history := H } d).history
        = moderateAnswer d (fun _ _ => t.onTopic) t.user_message
          (markConditionallySkipped st d).history := by
      rw [hmsg, htop]
      cases t'.user_message <;> rfl
    by_cases hmod : moderateAnswer d (fun _ _ => t.onTopic) t.user_message
        (markConditionallySkipped st d).history = false
    · rw [nextStep_offtopic d _ _ st sid svid t.user_message hterm' hmod,
        nextStep_offtopic d _ _ { st with history := H } sid svid t'.user_message hterm2
          (by rw [hmodv]; exact hmod),
        mark_hist st H d]
      refine ⟨H ++ [{ role := "assistant"
                      content := PyVal.str (d.off_topic_message.getD
                        "Please respond to the current survey question or let me know if you'd like to skip.")
                      question_id := (markConditionallySkipped st d).current_question_id }],
        ?_⟩
      rfl
    · have hmod' : moderateAnswer d (fun _ _ => t.onTopic) t.user_message
          (markConditionallySkipped st d).history = true := by
        cases hmm : moderateAnswer d (fun _ _ => t.onTopic) t.user_message
            (markConditionallySkipped st d).history with
        | false => exact absurd hmm hmod
        | true => rfl
      have hmod2 : moderateAnswer d (fun _ _ => t'.onTopic) t'.user_message
          (markConditionallySkipped { st with history := H } d).history = true := by
        rw [hmodv]
        exact hmod'
      rcases hbind : (markConditionallySkipped st d).current_question_id.bind (getQuestion d)
          with _ | cq
      · have hbind2 : (markConditionallySkipped { st with history := H } d).current_question_id.bind (getQuestion d) = Option.none := by
          rw [mark_hist st H d, hist_update_current]
          exact hbind
        rw [nextStep_nocurrent d _ _ st sid svid t.user_message hterm' hmod' hbind,
          nextStep_nocurrent d _ _ { st with history := H } sid svid t'.user_message hterm2
            hmod2 hbind2,
          mark_hist st H d]
        refine ⟨H ++ [{ role := "assistant", content := PyVal.str (endMessage d)
                        question_id := Option.none }], ?_⟩
        rfl
      · have hbind2 : (markConditionallySkipped { st with history := H } d).current_question_id.bind (getQuestion d) = some cq := by
          rw [mark_hist st H d, hist_update_current]
          exact hbind
        rw [nextStep_active d (fun _ _ => t.onTopic) (fun _ _ _ => t.resp)
            st sid svid t.user_message cq hterm' hmod' hbind]
        rw [nextStep_active d (fun _ _ => t'.onTopic) (fun _ _ _ => t'.resp)
            { st with history := H } sid svid t'.user_message cq hterm2 hmod2 hbind2]
        rw [hmsg]
        have key := clarifyOrAnswer_lockstep d cq sid t.resp t'.resp hrs
          (appendHistory (markConditionallySkipped st d) "user"
            (PyVal.str (t'.user_message.getD "")) (some cq.id))
          (H ++ [{ role := "user", content := PyVal.str (t'.user_message.getD "")
                   question_id := some cq.id }])
        rw [← appendHistory_hist (markConditionallySkipped st d) H "user"
            (PyVal.str (t'.user_message.getD "")) (some cq.id)] at key
        rw [← mark_hist st H d] at key
        exact key

theorem newlyAsked_hist (st post : SessionState) (H H2 : List HistoryEntry) :
    newlyAsked { st with history := H } { post with history := H2 }
      = newlyAsked st post := rfl

theorem askedTrace_lockstep (d : SurveyDef) (sid svid : String)
    (ts ts' : List TurnInput) (hf : List.Forall₂ turnSim ts ts') :
    ∀ (st : SessionState) (H : List HistoryEntry),
    askedTrace d sid svid { st with history := H } ts' = askedTrace d sid svid st ts := by
  induction hf with
  | nil =>
    intro st H
    rfl
  | @cons t t' ts0 ts0' hsim hrest ih =>
    intro st H
    have hls := nextStep_lockstep d sid svid t t' st H hsim
    rcases h1 : nextStepScripted d t (some st) sid svid with e | p
    · rcases h2 : nextStepScripted d t' (some { st with history := H }) sid svid with e' | p'
      · simp only [askedTrace, h1, h2]
      · rw [h1, h2] at hls
        cases hls
    · rcases h2 : nextStepScripted d t' (some { st with history := H }) sid svid with e' | p'
      · rw [h1, h2] at hls
        cases hls
      · rw [h1, h2] at hls
        obtain ⟨H2, hH2⟩ := hls
        simp only [askedTrace, h1, h2]
        rw [hH2, newlyAsked_hist st p.2 H H2, ih p.2 H2]

/-- C8: for any two scripted runs over the same definition from the same
state, in which every turn has the same user message and moderation verdict
and the port returns `respSim`-similar responses — the same parsed answer,
clarification flag and `next_question_id`, but arbitrarily different
`assistant_question_text` and `clarification_question` texts — the sequences
of question ids that become `asked` are identical. -/
theorem C8_asked_sequence_deterministic (d : SurveyDef) (sid svid : String)
    (st : SessionState) (ts ts' : List TurnInput)
    (hf : List.Forall₂ turnSim ts ts') :
    askedTrace d sid svid st ts = askedTrace d sid svid st ts' := by
  have h := askedTrace_lockstep d sid svid ts ts' hf st st.history
  rw [show ({ st with history := st.history } : SessionState) = st from rfl] at h
  exact h.symm

/-- A turn like `turnYesQ3` but with entirely different phrasing fields. -/
def turnYesQ3Text : TurnInput :=
  { user_message := some "yes", onTopic := true
    resp := PortResponse.dict
      { parsed_answer := some (PAField.pdict (some (PyVal.str "Q1")) (some (PyVal.str "Yes")))
        need_clarification := some (PyVal.bool false)
        clarification_question := some (PyVal.str "Could you restate that?")
        next_question_id := some (PyVal.str "Q3")
        assistant_question_text := some (PyVal.str "And how about the third one?") } }

/-- Witness for C8 at two concrete one-turn scripts differing only in the
phrasing fields. -/
theorem C8_asked_sequence_deterministic_witness :
    askedTrace dT3 "s" "v" stT3 [turnYesQ3] = askedTrace dT3 "s" "v" stT3 [turnYesQ3Text] :=
  C8_asked_sequence_deterministic dT3 "s" "v" stT3 [turnYesQ3] [turnYesQ3Text]
    (List.Forall₂.cons ⟨rfl, rfl, rfl, rfl, rfl, rfl⟩ List.Forall₂.nil)

/-! ### C10 -/

/-- C10: the snapshot handed to the interpretation port carries no
`terminated` flag — `toLlm` is invariant under it — and `next_step`'s
outcome depends on the port only through its return value at the single
input `portInput` (the deep-copied, `terminated`-stripped state after the
skip re-marking and the user-message append): two ports that agree there
yield identical results, so nothing the port does with its argument can
reach the engine's own state. -/
theorem C10_port_sees_stripped_copy :
    (∀ (st : SessionState) (b : Bool),
      SessionState.toLlm { st with terminated := b } = st.toLlm) ∧
    (∀ (d : SurveyDef) (mod : ModOracle) (port port' : PortFn)
        (st : SessionState) (sid svid : String) (msg : Option String),
      port (portInput d st msg) d (msg.getD "") = port' (portInput d st msg) d (msg.getD "") →
      nextStep d mod port (some st) sid svid msg
        = nextStep d mod port' (some st) sid svid msg) := by
  refine ⟨fun st b => rfl, ?_⟩
  intro d mod port port' st sid svid msg hp
  by_cases hterm : st.terminated = true
  · rw [nextStep_terminated d mod port st sid svid msg hterm,
      nextStep_terminated d mod port' st sid svid msg hterm]
  · have hterm' : st.terminated = false := Bool.eq_false_iff.mpr hterm
    by_cases hmod : moderateAnswer d mod msg (markConditionallySkipped st d).history = false
    · rw [nextStep_offtopic d mod port st sid svid msg hterm' hmod,
        nextStep_offtopic d mod port' st sid svid msg hterm' hmod]
    · have hmod' : moderateAnswer d mod msg (markConditionallySkipped st d).history = true := by
        cases hmm : moderateAnswer d mod msg (markConditionallySkipped st d).history with
        | false => exact absurd hmm hmod
        | true => rfl
      rcases hbind : (markConditionallySkipped st d).current_question_id.bind (getQuestion d)
          with _ | cq
      · rw [nextStep_nocurrent d mod port st sid svid msg hterm' hmod' hbind,
          nextStep_nocurrent d mod port' st sid svid msg hterm' hmod' hbind]
      · rw [nextStep_active d mod port st sid svid msg cq hterm' hmod' hbind,
          nextStep_active d mod port' st sid svid msg cq hterm' hmod' hbind,
          ← portInput_active d st msg cq hbind, hp]

/-- Witness for C10: a port that inspects its message argument but agrees
with the constant port at the consulted input yields the identical turn. -/
theorem C10_port_sees_stripped_copy_witness :
    SessionState.toLlm { stT3 with terminated := true } = stT3.toLlm ∧
    nextStep dT3 (fun _ _ => true) (fun _ _ _ => respVal (PyVal.str "Yes") (some "Q2"))
        (some stT3) "s" "v" (some "yes")
      = nextStep dT3 (fun _ _ => true)
          (fun _ _ m => if m = "yes" then respVal (PyVal.str "Yes") (some "Q2")
            else PortResponse.nonDict PyVal.pynone)
          (some stT3) "s" "v" (some "yes") :=
  ⟨C10_port_sees_stripped_copy.1 stT3 true,
   C10_port_sees_stripped_copy.2 dT3 (fun _ _ => true)
     (fun _ _ _ => respVal (PyVal.str "Yes") (some "Q2"))
     (fun _ _ m => if m = "yes" then respVal (PyVal.str "Yes") (some "Q2")
       else PortResponse.nonDict PyVal.pynone)
     stT3 "s" "v" (some "yes") rfl⟩
